import Mathlib

/-!
Shallow embedding of the MCMC core of pymcmcstat:
  * samplers/Metropolis.py          (class Metropolis)
  * DelayedRejectionAlgorithm.py    (class DelayedRejectionAlgorithm)
  * PredictionIntervals.py          (class PredictionIntervals)

Modelling conventions:
  * numpy floats are modelled as ideal real numbers; values that can be
    `np.inf` (the sum-of-squares field `ss` and the acceptance ratio
    before clamping) live in `EReal`.  Where numpy and the `EReal`
    conventions differ (only at degenerate points such as `inf - inf`,
    `0 * inf` or `0.0 ** (-1)`), the difference is noted at the claim
    that touches it.
  * 1-d numpy arrays are Lean lists of reals; matrices are lists of rows.
    The `ss`/`sigma2` arrays carried by a `ParameterSet` are modelled in
    the single-component (scalar) case, so the `sum(...)` wrappers of
    the source are the identity.
  * the numpy random stream is an explicit function `ℕ → ℝ`; drawing `n`
    variates reads positions `0..n-1` and shifts the stream by `n`.
  * `sys.exit` / uncaught Python exceptions are `Except.error`; the
    stream at the moment of the error is carried in the error value so
    that theorems can observe how many draws were consumed before it.
-/

noncomputable section
open scoped Classical

/-! ## Vector and matrix helpers (numpy operations used by the source) -/

/-- Componentwise sum of two vectors (numpy `+` on equal-length 1-d arrays). -/
def addvec (u v : List ℝ) : List ℝ := List.zipWith (fun a b => a + b) u v

/-- Componentwise difference of two vectors (numpy `-`). -/
def subvec (u v : List ℝ) : List ℝ := List.zipWith (fun a b => a - b) u v

/-- Scale a vector by a constant. -/
def scalevec (c : ℝ) (v : List ℝ) : List ℝ := v.map (fun x => c * x)

/-- Row-vector times matrix, `np.dot(u, M)`: the sum of the rows of `M`
scaled by the entries of `u`. -/
def vecmatmul (u : List ℝ) (M : List (List ℝ)) : List ℝ :=
  (List.zipWith scalevec u M).foldr addvec (List.replicate (M.headD []).length 0)

/-- Squared Euclidean norm, `np.linalg.norm(v) ** 2` (the source only ever
squares the norm, so it is modelled directly as a sum of squares). -/
def normsq (v : List ℝ) : ℝ := (v.map (fun x => x ^ 2)).sum

/-! ## Random stream -/

/-- The pseudo-random source: position `i` holds the `i`-th variate that
numpy would produce. -/
def shiftS (s : ℕ → ℝ) (n : ℕ) : ℕ → ℝ := fun i => s (i + n)

/-- The next `n` variates of the stream, in order (`np.random.randn(1, n)`
or `np.random.rand(n)` depending on the call site). -/
def takeS (s : ℕ → ℝ) (n : ℕ) : List ℝ := (List.range n).map s

theorem shiftS_shiftS (s : ℕ → ℝ) (m n : ℕ) :
    shiftS (shiftS s m) n = shiftS s (m + n) := by
  funext i
  simp [shiftS, Nat.add_assoc, Nat.add_comm n m]

/-! ## Extended-real exponential -/

/-- numpy `exp` on a float that may be `±inf`: `exp(-inf) = 0`,
`exp(inf) = inf`, finite otherwise. -/
def eexp (y : EReal) : EReal :=
  if y = ⊤ then ⊤ else if y = ⊥ then 0 else ((Real.exp y.toReal : ℝ) : EReal)

theorem eexp_coe (x : ℝ) : eexp (x : EReal) = ((Real.exp x : ℝ) : EReal) := by
  simp [eexp, EReal.coe_ne_top, EReal.coe_ne_bot]

theorem eexp_nonneg (y : EReal) : 0 ≤ eexp y := by
  unfold eexp
  split
  · exact le_top
  · split
    · exact le_refl 0
    · exact EReal.coe_nonneg.2 (Real.exp_nonneg _)

/-! ## Data model -/

/-- Embedding of `structures/ParameterSet.py` (not under `src/`).
Modelled from the spec: section 3 lists the fields `theta`, `sigma2`,
`ss`, `prior`, `like`, `alpha` of a ParameterState; `ss` may be
`+infinity`, `alpha` is an acceptance probability.  The bare constructor
`ParameterSet()` of the source leaves fields unset; unset fields are
modelled as the defaults below and are never read before being
overwritten by the algorithms under verification. -/
structure ParameterSet where
  theta : List ℝ := []
  ss : EReal := 0
  prior : ℝ := 0
  like : ℝ := 0
  sigma2 : ℝ := 0
  alpha : EReal := 0

instance : Inhabited ParameterSet := ⟨{}⟩

/-- The read-only model-parameter bundle (`parameters` argument):
`npar`, `lower_limits`, `upper_limits`, `parind`, `_initial_value`. -/
structure ModelParameters where
  npar : ℕ
  lower_limits : List ℝ
  upper_limits : List ℝ
  parind : List ℕ
  initial_value : List ℝ

/-- Fancy indexing `xs[idx[:]]`. -/
def indexSel (xs : List ℝ) (idx : List ℕ) : List ℝ :=
  idx.map (fun i => xs.getD i 0)

/-- The bounds predicate shared by `Metropolis` (via the utilities helper
`is_sample_outside_bounds`, spec section 4.1) and by the in-source check of
`DelayedRejectionAlgorithm.run_delayed_rejection` line 30:
`(theta < lower).any() or (theta > upper).any()` componentwise. -/
def outside_bounds (th lo up : List ℝ) : Prop :=
  (∃ i < th.length, th.getD i 0 < lo.getD i 0) ∨
    (∃ i < th.length, up.getD i 0 < th.getD i 0)

/-! ## Metropolis collaborators from `samplers/utilities.py` (not under
`src/`), modelled from the spec -/

/-- Modelled from the spec: `sample_candidate_from_gaussian_proposal`
(section 4.1) draws `npar` standard-normal variates `u` and returns
`candidate = current + u . R` together with the raw draw. -/
def sample_candidate_from_gaussian_proposal (npar : ℕ) (oldpar : List ℝ)
    (R : List (List ℝ)) (s : ℕ → ℝ) : List ℝ × List ℝ :=
  (addvec oldpar (vecmatmul (takeS s npar) R), takeS s npar)

/-- Modelled from the spec: `set_outside_bounds` (section 4.2 step 2)
builds the out-of-bounds result state `ss = +infinity`, `prior = 0`,
`alpha = 0` and reports `outbound = 1`. -/
def set_outside_bounds (next_set : ParameterSet) : ParameterSet × ℕ :=
  ({ next_set with ss := ⊤, prior := 0, alpha := 0 }, 1)

/-- Modelled from the spec: `acceptance_test` (section 4.2 step 5) accepts
when `alpha >= 1` or a uniform draw is `< alpha`; as in the in-source test
of the DR loop, the uniform variate is only drawn when `alpha < 1`. -/
def acceptance_test (alpha : EReal) (s : ℕ → ℝ) : Bool × (ℕ → ℝ) :=
  if 1 ≤ alpha then (true, s)
  else if ((s 0 : ℝ) : EReal) < alpha then (true, shiftS s 1)
  else (false, shiftS s 1)

/-! ## samplers/Metropolis.py -/

/-- `Metropolis.evaluate_likelihood_function` (Metropolis.py line 173):
`alpha = exp(-0.5*(sum((ss1 - ss2)*(sigma2**(-1))) + newprior - oldprior))`,
returned without any clamping (`return sum(alpha)`). -/
def evaluate_likelihood_function (ss1 ss2 : EReal) (sigma2 newprior oldprior : ℝ) :
    EReal :=
  eexp ((-(1 / 2 : ℝ) : EReal) *
    ((ss1 - ss2) * ((sigma2⁻¹ : ℝ) : EReal) + (newprior : ℝ) - (oldprior : ℝ)))

/-- Scatter assignment `q[parind] = newpar` on a copy of `_initial_value`. -/
def scatter_update (base : List ℝ) (idx : List ℕ) (vals : List ℝ) : List ℝ :=
  (idx.zip vals).foldl (fun acc p => acc.set p.1 p.2) base

/-- `Metropolis.run_metropolis_step`.  The model collaborators
`prior_object.evaluate_prior`, `like_object.evaluate_likelihood`,
`like_object.evaluate_sos_function` and `sos_object.evaluate_sos_function`
are passed as the functions `prior_f`, `like_f`, `likesos_f`, `sos_f`.
Returns `(accept, newset, outbound, npar_sample_from_normal, stream)`. -/
def run_metropolis_step (old_set : ParameterSet) (parameters : ModelParameters)
    (R : List (List ℝ)) (prior_f : List ℝ → ℝ) (like_f : List ℝ → ℝ)
    (likesos_f : List ℝ → EReal) (sos_f : List ℝ → EReal) (s : ℕ → ℝ) :
    Bool × ParameterSet × ℕ × List ℝ × (ℕ → ℝ) :=
  let newpar :=
    (sample_candidate_from_gaussian_proposal parameters.npar old_set.theta R s).1
  let u := (sample_candidate_from_gaussian_proposal parameters.npar old_set.theta R s).2
  let s1 := shiftS s parameters.npar
  if outside_bounds newpar (indexSel parameters.lower_limits parameters.parind)
      (indexSel parameters.upper_limits parameters.parind) then
    let pr := set_outside_bounds { theta := newpar, sigma2 := old_set.sigma2 }
    (false, pr.1, pr.2, u, s1)
  else
    let newprior := prior_f newpar
    let newlike := like_f newpar
    let ss2 := old_set.ss
    -- first sum-of-squares evaluation, immediately overwritten (source
    -- lines 84-87 keep both calls; the first result is dead)
    let _ss1dead := sos_f newpar
    let q := scatter_update parameters.initial_value parameters.parind newpar
    let ss1 := likesos_f q
    let alpha := evaluate_likelihood_function ss1 ss2 old_set.sigma2 newprior old_set.prior
    let ar := acceptance_test alpha s1
    let newset : ParameterSet :=
      { theta := newpar, ss := ss1, prior := newprior, like := newlike,
        sigma2 := old_set.sigma2, alpha := alpha }
    (ar.1, newset, 0, u, ar.2)

/-! ## DelayedRejectionAlgorithm.py -/

/-- `DelayedRejectionAlgorithm.qfun`: Gaussian nth-stage log proposal
ratio.  `stage = len(trypath) - 1 - 1`; at `stage == iq` the proposal is
symmetric and the ratio is `0`, otherwise it is computed from the inverse
proposal factor `invR[iq]` and four path points. -/
def qfun (iq : ℕ) (trypath : List ParameterSet) (invR : List (List (List ℝ))) : ℝ :=
  let stage := trypath.length - 1 - 1
  if stage = iq then 0
  else
    let iR := invR.getD iq []
    let y1 := (trypath.getD 0 {}).theta
    let y2 := (trypath.getD (iq + 1) {}).theta
    let y3 := (trypath.getD (stage + 1) {}).theta
    let y4 := (trypath.getD (stage - iq) {}).theta
    let zq := -(1 / 2) * (normsq (vecmatmul (subvec y4 y3) iR) -
      normsq (vecmatmul (subvec y2 y1) iR))
    zq

/-- `DelayedRejectionAlgorithm.logposteriorratio` (scalar `ss`/`sigma2`
case, so the two `sum(...)` wrappers of the source are the identity):
`-0.5*((x2.ss*x2.sigma2**(-1) - x1.ss*x1.sigma2**(-1)) + x2.prior - x1.prior)`. -/
def logposteriorratio (x1 x2 : ParameterSet) : EReal :=
  (-(1 / 2 : ℝ) : EReal) *
    ((x2.ss * ((x2.sigma2⁻¹ : ℝ) : EReal) - x1.ss * ((x1.sigma2⁻¹ : ℝ) : EReal)) +
      (x2.prior : ℝ) - (x1.prior : ℝ))

/-- The reversed slice `trypath[stage : stage - k - 2 : -1]` of the
`alphafun` recursion (with `stage = len(trypath) - 1`): the last `k + 2`
elements of the path in reverse order. -/
def revSlice (tp : List ParameterSet) (k : ℕ) : List ParameterSet :=
  (tp.drop (tp.length - k - 2)).reverse

/-- The `for k in range(0, stage - 1)` loop of `alphafun`: accumulates
`a1 = a1 * (1 - alphafun(trypath[0:k+2]))` and
`a2 = a2 * (1 - alphafun(trypath[stage:stage-k-2:-1]))`, returning `none`
as soon as `a2 == 0` (the early `return np.zeros(1)` of the source).
The recursive sub-evaluations are supplied as the function `sub`. -/
def drAlphaLoop (sub : List ParameterSet → ℝ) (tp : List ParameterSet) :
    List ℕ → ℝ → ℝ → Option (ℝ × ℝ)
  | [], a1, a2 => some (a1, a2)
  | k :: ks, a1, a2 =>
    let tmp1 := sub (tp.take (k + 2))
    let a1x := a1 * (1 - tmp1)
    let tmp2 := sub (revSlice tp k)
    let a2x := a2 * (1 - tmp2)
    if a2x = 0 then none else drAlphaLoop sub tp ks a1x a2x

/-- The trailing computation of `alphafun` once the loop has finished:
`y = logposteriorratio(trypath[0], trypath[-1])` plus the `qfun` terms for
`k in range(stage)`, added one at a time as in the source. -/
def alphaY (tp : List ParameterSet) (invR : List (List (List ℝ))) : EReal :=
  (List.range (tp.length - 1)).foldl
    (fun acc k => acc + ((qfun k tp invR : ℝ) : EReal))
    (logposteriorratio (tp.getD 0 {}) (tp.getD (tp.length - 1) {}))

/-- `DelayedRejectionAlgorithm.alphafun`, with an explicit recursion-depth
bound (any bound of at least `len(trypath)` is enough, and `alphafun`
below instantiates it so): the result is `0` on the `a2 == 0`
short-circuit, and `min(1, exp(y) * a2 * a1**(-1))` otherwise.  The final
value is a float in `[0, 1]`, so it is read back into `ℝ`; `a1**(-1)`
follows the Lean convention `(0 : ℝ)⁻¹ = 0` (numpy emits `inf` with a
warning there — see the C4 analysis). -/
def alphafunF : ℕ → List ParameterSet → List (List (List ℝ)) → ℝ
  | 0, _, _ => 0
  | f + 1, tp, invR =>
    let stage := tp.length - 1
    match drAlphaLoop (fun t => alphafunF f t invR) tp (List.range (stage - 1)) 1 1 with
    | none => 0
    | some (a1, a2) =>
      (min 1 (eexp (alphaY tp invR) * ((a2 : ℝ) : EReal) * ((a1⁻¹ : ℝ) : EReal))).toReal

/-- `alphafun` at its canonical recursion budget. -/
def alphafun (tp : List ParameterSet) (invR : List (List (List ℝ))) : ℝ :=
  alphafunF tp.length tp invR

/-- Evaluation trace of one `alphafun` call tree: the returned value, the
number of `alphafun` invocations (the source's `dr_step_counter`), and the
numbers of `logposteriorratio` and `qfun` evaluations performed. -/
structure ATrace where
  val : ℝ
  calls : ℕ
  nlpr : ℕ
  nq : ℕ

/-- Instrumented form of `drAlphaLoop`: additionally accumulates the
evaluation counts of the recursive sub-calls it performs. -/
def drAlphaLoopT (sub : List ParameterSet → ATrace) (tp : List ParameterSet) :
    List ℕ → ℝ → ℝ → ℕ → ℕ → ℕ → Option (ℝ × ℝ) × ℕ × ℕ × ℕ
  | [], a1, a2, c, cl, cq => (some (a1, a2), c, cl, cq)
  | k :: ks, a1, a2, c, cl, cq =>
    let t1 := sub (tp.take (k + 2))
    let a1x := a1 * (1 - t1.val)
    let t2 := sub (revSlice tp k)
    let a2x := a2 * (1 - t2.val)
    let cx := c + t1.calls + t2.calls
    let clx := cl + t1.nlpr + t2.nlpr
    let cqx := cq + t1.nq + t2.nq
    if a2x = 0 then (none, cx, clx, cqx)
    else drAlphaLoopT sub tp ks a1x a2x cx clx cqx

/-- Instrumented form of `alphafunF`: the same computation together with
its evaluation counts.  On the `a2 == 0` short-circuit the call returns
`0` having evaluated no `logposteriorratio` and no `qfun` of its own;
otherwise it evaluates `logposteriorratio` once and `qfun` `stage`
times. -/
def alphafunT : ℕ → List ParameterSet → List (List (List ℝ)) → ATrace
  | 0, _, _ => ⟨0, 1, 0, 0⟩
  | f + 1, tp, invR =>
    let stage := tp.length - 1
    match drAlphaLoopT (fun t => alphafunT f t invR) tp (List.range (stage - 1)) 1 1 0 0 0 with
    | (none, c, cl, cq) => ⟨0, 1 + c, cl, cq⟩
    | (some (a1, a2), c, cl, cq) =>
      ⟨(min 1 (eexp (alphaY tp invR) * ((a2 : ℝ) : EReal) * ((a1⁻¹ : ℝ) : EReal))).toReal,
        1 + c, cl + 1, cq + stage⟩

/-- Mutable state of one `run_delayed_rejection` call: the Python locals
`itry`, `accept`, `trypath`, `out_set`, `outbound` (the last two are
`Option` because the source leaves them unassigned until the loop body
first runs), the `iacce` diagnostic counters, and the random stream. -/
structure DRState where
  accept : ℕ
  itry : ℕ
  trypath : List ParameterSet
  out_set : Option ParameterSet
  outbound : Option ℕ
  iacce : List ℕ
  stream : ℕ → ℝ

/-- One iteration of the `while` loop of `run_delayed_rejection`:
increment `itry`, draw the candidate
`next_set.theta = old_set.theta + u . RDR[itry-1]`, then either take the
out-of-bounds branch (lines 30-37: assign `alpha = 0`, `prior = 0`,
`ss = inf`, append, set `outbound = 1`, `out_set = old_set`, continue) or
evaluate the collaborators, append, compute `alphafun` (recording it on
the appended set), and run the accept test
`alpha >= 1 or np.random.rand(1) < alpha` (the uniform variate is only
drawn when `alpha < 1`, mirroring Python's short-circuit `or`). -/
def drIter (old_set new_set : ParameterSet) (RDR : List (List (List ℝ)))
    (parameters : ModelParameters) (invR : List (List (List ℝ)))
    (sos_f : List ℝ → EReal) (prior_f : List ℝ → ℝ) (st : DRState) : DRState :=
  let itry := st.itry + 1
  let u := takeS st.stream parameters.npar
  let th := addvec old_set.theta (vecmatmul u (RDR.getD (itry - 1) []))
  let s1 := shiftS st.stream parameters.npar
  if outside_bounds th (indexSel parameters.lower_limits parameters.parind)
      (indexSel parameters.upper_limits parameters.parind) then
    let next_set : ParameterSet :=
      { theta := th, sigma2 := new_set.sigma2, alpha := 0, prior := 0, ss := ⊤ }
    { accept := st.accept, itry := itry, trypath := st.trypath ++ [next_set],
      out_set := some old_set, outbound := some 1, iacce := st.iacce, stream := s1 }
  else
    let next0 : ParameterSet :=
      { theta := th, sigma2 := new_set.sigma2, ss := sos_f th, prior := prior_f th }
    let alphav := alphafun (st.trypath ++ [next0]) invR
    let next_set : ParameterSet := { next0 with alpha := (alphav : ℝ) }
    let tp := st.trypath ++ [next_set]
    if 1 ≤ alphav then
      { accept := 1, itry := itry, trypath := tp, out_set := some next_set,
        outbound := some 0,
        iacce := st.iacce.set (itry - 1) (st.iacce.getD (itry - 1) 0 + 1), stream := s1 }
    else if s1 0 < alphav then
      { accept := 1, itry := itry, trypath := tp, out_set := some next_set,
        outbound := some 0,
        iacce := st.iacce.set (itry - 1) (st.iacce.getD (itry - 1) 0 + 1),
        stream := shiftS s1 1 }
    else
      { accept := st.accept, itry := itry, trypath := tp, out_set := some old_set,
        outbound := some 0, iacce := st.iacce, stream := shiftS s1 1 }

/-- The `while accept == 0 and itry < ntry` loop; the fuel argument is a
bound on the remaining iterations (`run_delayed_rejection` passes `ntry`,
which suffices since `itry` starts at 1 and increases by 1 per pass). -/
def drLoop (old_set new_set : ParameterSet) (RDR : List (List (List ℝ)))
    (ntry : ℕ) (parameters : ModelParameters) (invR : List (List (List ℝ)))
    (sos_f : List ℝ → EReal) (prior_f : List ℝ → ℝ) :
    ℕ → DRState → DRState
  | 0, st => st
  | fl + 1, st =>
    if st.accept = 0 ∧ st.itry < ntry then
      drLoop old_set new_set RDR ntry parameters invR sos_f prior_f fl
        (drIter old_set new_set RDR parameters invR sos_f prior_f st)
    else st

/-- `DelayedRejectionAlgorithm.run_delayed_rejection`.  The locals
`out_set` and `outbound` are only assigned inside the loop body; if the
loop body never runs, the final `return accept, out_set, outbound` raises
`UnboundLocalError`, modelled as `Except.error`.  On success the result is
`(accept, out_set, outbound, stream)`. -/
def run_delayed_rejection (old_set new_set : ParameterSet)
    (RDR : List (List (List ℝ))) (ntry : ℕ) (parameters : ModelParameters)
    (invR : List (List (List ℝ))) (sos_f : List ℝ → EReal)
    (prior_f : List ℝ → ℝ) (s : ℕ → ℝ) :
    Except String (ℕ × ParameterSet × ℕ × (ℕ → ℝ)) :=
  let st0 : DRState :=
    { accept := 0, itry := 1, trypath := [old_set, new_set], out_set := none,
      outbound := none, iacce := List.replicate ntry 0, stream := s }
  let fin := drLoop old_set new_set RDR ntry parameters invR sos_f prior_f ntry st0
  match fin.out_set, fin.outbound with
  | some os, some ob => Except.ok (fin.accept, os, ob, fin.stream)
  | _, _ => Except.error "UnboundLocalError: local variable referenced before assignment"

/-! ## PredictionIntervals.py

`sys.exit(msg)` is modelled as `Except.error (msg, stream)`, carrying the
random stream as it stood when the process died, so that theorems can
state how many draws were consumed before the error. -/

/-- The matrix of `np.random.standard_normal(ypred.shape)` draws, filled
row-major from the stream. -/
def noiseMat (s : ℕ → ℝ) (my ny : ℕ) : List (List ℝ) :=
  (List.range my).map (fun i => (List.range ny).map (fun j => s (i * ny + j)))

/-- `PredictionIntervals._observation_sample`: broadcast/shape-check
`s2elem` against the model response, then perturb the response according
to the residual-scaling mode `sstype` (0: additive Gaussian, 1: sqrt,
2: log), consuming one standard-normal matrix; any other `sstype` is
`sys.exit('Unknown sstype')`.  `s2elem` is the 1-row variance slice; its
length plays the role of `ns` in the source's `ms, ns = s2elem.shape`. -/
def observation_sample (s2elem : List ℝ) (ypred : List (List ℝ)) (sstype : ℕ)
    (s : ℕ → ℝ) : Except (String × (ℕ → ℝ)) (List (List ℝ) × (ℕ → ℝ)) :=
  let my := ypred.length
  let ny := (ypred.headD []).length
  let ns := s2elem.length
  if ns ≠ ny ∧ ns ≠ 1 then
    Except.error ("Unclear data structure: error variances do not match size of model output", s)
  else
    let s2b := if ns ≠ ny ∧ ns = 1 then List.replicate ny (s2elem.getD 0 0) else s2elem
    let entry : ℕ → ℕ → ℝ := fun i j => (ypred.getD i []).getD j 0
    let noise : ℕ → ℕ → ℝ := fun i j => s (i * ny + j) * Real.sqrt (s2b.getD j 0)
    if sstype = 0 then
      Except.ok ((List.range my).map (fun i => (List.range ny).map
        (fun j => entry i j + noise i j)), shiftS s (my * ny))
    else if sstype = 1 then
      Except.ok ((List.range my).map (fun i => (List.range ny).map
        (fun j => (Real.sqrt (entry i j) + noise i j) ^ 2)), shiftS s (my * ny))
    else if sstype = 2 then
      Except.ok ((List.range my).map (fun i => (List.range ny).map
        (fun j => entry i j * Real.exp (noise i j))), shiftS s (my * ny))
    else Except.error ("Unknown sstype", s)

/-- `PredictionIntervals._empirical_quantiles`: per column of `x`, sort
the sample values and linearly interpolate (`interp1d`) at the evaluation
points `(n - 1) * p`. -/
def empirical_quantiles (x : List (List ℝ)) (p : List ℝ) : List (List ℝ) :=
  let n := x.length
  let m := (x.headD []).length
  let sortedCol : ℕ → List ℝ := fun c =>
    (x.map (fun row => row.getD c 0)).mergeSort (fun a b => decide (a ≤ b))
  let interp : ℝ → List ℝ → ℝ := fun t v =>
    let i := (⌊t⌋).toNat
    v.getD i 0 + (t - (i : ℝ)) * (v.getD (i + 1) 0 - v.getD i 0)
  p.map (fun pr => (List.range m).map (fun c => interp (((n : ℝ) - 1) * pr) (sortedCol c)))

/-- The fields of a `PredictionIntervals` object read by
`generate_prediction_intervals`, as assigned by
`setup_prediction_interval_calculation` / `_analyze_s2chain`.  `plocal`
models `self.__local` (Lean reserves the word it is named after in the
source). -/
structure PIState (D : Type) where
  chain : List (List ℝ)
  s2chain : Option (List (List ℝ))
  parind : List ℕ
  plocal : List ℕ
  theta : List ℝ
  sstype : ℕ
  nrow : List ℕ
  ncol : List ℕ
  s2chain_index : List (ℕ × ℕ)
  datapred : List D
  modelfun : D → List ℝ → List (List ℝ)

/-- The per-sample loop `for kk in xrange(nsample)` of
`generate_prediction_intervals` for one data batch `ii`: update `theta`
at `parind` from the sampled chain row, mask with `local`, evaluate the
model, and (when an `s2chain` is present) draw an observation sample,
which may `sys.exit`.  Accumulates `ysave` and `osave`. -/
def piSampleLoop {D : Type} (self : PIState D) (s2chain : Option (List (List ℝ)))
    (iisample : List ℕ) (sstype : ℕ) (dpred : D) (ii : ℕ) :
    List ℕ → List ℝ → (ℕ → ℝ) → List (List (List ℝ)) → List (List (List ℝ)) →
    Except (String × (ℕ → ℝ))
      (List ℝ × (ℕ → ℝ) × List (List (List ℝ)) × List (List (List ℝ)))
  | [], theta, s, ysave, osave => Except.ok (theta, s, ysave, osave)
  | kk :: rest, theta, s, ysave, osave =>
    let idx := iisample.getD kk 0
    let theta1 := scatter_update theta self.parind (self.chain.getD idx [])
    let th := ((theta1.zip self.plocal).filter
      (fun pr => decide (pr.2 = 0 ∨ pr.2 = ii))).map (fun pr => pr.1)
    let ypred := self.modelfun dpred th
    match s2chain with
    | some s2c =>
      let i0 := (self.s2chain_index.getD ii (0, 0)).1
      let i1 := (self.s2chain_index.getD ii (0, 0)).2
      let s2elem := ((s2c.getD idx []).drop i0).take (i1 - i0)
      match observation_sample s2elem ypred sstype s with
      | Except.error e => Except.error e
      | Except.ok (opred, s1) =>
        piSampleLoop self s2chain iisample sstype dpred ii rest theta1 s1
          (ysave ++ [ypred]) (osave ++ [opred])
    | none =>
      let opred := List.replicate (self.nrow.getD ii 0)
        (List.replicate (self.ncol.getD ii 0) (0 : ℝ))
      piSampleLoop self s2chain iisample sstype dpred ii rest theta1 s
        (ysave ++ [ypred]) (osave ++ [opred])

/-- The column slice `save[:, :, jj]`: for each stored sample, its
`jj`-th response column as a row. -/
def colSlice (save : List (List (List ℝ))) (jj : ℕ) : List (List ℝ) :=
  save.map (fun m => m.map (fun row => row.getD jj 0))

/-- The outer `for ii in xrange(len(self.datapred))` loop: run the sample
loop for the batch, then reduce `ysave`/`osave` to credible/prediction
interval quantiles column by column. -/
def piBatchLoop {D : Type} [Inhabited D] (self : PIState D) (s2chain : Option (List (List ℝ)))
    (iisample : List ℕ) (sstype : ℕ) (nsample : ℕ) (lims : List ℝ) :
    List ℕ → List ℝ → (ℕ → ℝ) →
    List (List (List (List ℝ))) → List (List (List (List ℝ))) →
    Except (String × (ℕ → ℝ))
      (List (List (List (List ℝ))) × List (List (List (List ℝ))) × (ℕ → ℝ))
  | [], _, s, cred, pred => Except.ok (cred, pred, s)
  | ii :: rest, theta, s, cred, pred =>
    match piSampleLoop self s2chain iisample sstype
        (self.datapred.getD ii default) ii (List.range nsample) theta s [] [] with
    | Except.error e => Except.error e
    | Except.ok (theta1, s1, ysave, osave) =>
      let plim := (List.range (self.ncol.getD ii 0)).map
        (fun jj => empirical_quantiles (colSlice ysave jj) lims)
      let olim := if s2chain.isSome then
          (List.range (self.ncol.getD ii 0)).map
            (fun jj => empirical_quantiles (colSlice osave jj) lims)
        else []
      piBatchLoop self s2chain iisample sstype nsample lims rest theta1 s1
        (cred ++ [plim]) (pred ++ [olim])

/-- `PredictionIntervals.generate_prediction_intervals`: resolve the
`sstype` (an explicitly passed value is replaced by `0`; only the stored
one is used when the argument is `None`), resolve `nsample`, draw the
chain-subsampling indices `iisample` when `nsample < nsimu` (consuming
`nsample` uniform variates), then run the batch loop.  Returns the
credible/prediction intervals dictionary and the final stream. -/
def generate_prediction_intervals {D : Type} [Inhabited D] (self : PIState D)
    (sstypeArg : Option ℕ) (nsampleArg : Option ℕ) (calc_pred_int : Bool)
    (s : ℕ → ℝ) :
    Except (String × (ℕ → ℝ))
      ((List (List (List (List ℝ))) × Option (List (List (List (List ℝ))))) × (ℕ → ℝ)) :=
  let chain := self.chain
  let s2chain := if calc_pred_int then self.s2chain else none
  let nsimu := chain.length
  let lims : List ℝ :=
    if s2chain.isNone then [0.005, 0.025, 0.05, 0.25, 0.5, 0.75, 0.9, 0.975, 0.995]
    else [0.025, 0.5, 0.975]
  let sstype := match sstypeArg with
    | none => self.sstype
    | some _ => 0
  let nsample0 := match nsampleArg with
    | none => nsimu
    | some n => n
  let draw := nsample0 < nsimu
  let iisample : List ℕ :=
    if draw then (takeS s nsample0).map (fun r => (⌈r * (nsimu : ℝ)⌉ - 1).toNat)
    else List.range nsimu
  let nsample := if draw then nsample0 else nsimu
  let s1 := if draw then shiftS s nsample0 else s
  match piBatchLoop self s2chain iisample sstype nsample lims
      (List.range self.datapred.length) self.theta s1 [] [] with
  | Except.error e => Except.error e
  | Except.ok (cred, pred, s2) =>
    Except.ok ((cred, if s2chain.isNone then none else some pred), s2)

/-! ## Helper lemmas -/

theorem ereal_mul_nonneg {a b : EReal} (ha : 0 ≤ a) (hb : 0 ≤ b) : 0 ≤ a * b := by
  rcases eq_or_lt_of_le ha with h | h
  · rw [← h, zero_mul]
  · rcases eq_or_lt_of_le hb with h2 | h2
    · rw [← h2, mul_zero]
    · exact le_of_lt (EReal.mul_pos h h2)

theorem ereal_min_one_toReal_mem {x : EReal} (hx : 0 ≤ x) :
    0 ≤ (min 1 x).toReal ∧ (min 1 x).toReal ≤ 1 := by
  have h0 : (0 : EReal) ≤ min 1 x := le_min (by norm_num) hx
  have h1 : min 1 x ≤ 1 := min_le_left 1 x
  have hb : min 1 x ≠ ⊥ := by
    intro hEq
    rw [hEq] at h0
    exact absurd (le_bot_iff.1 h0) EReal.zero_ne_bot
  have h1t : (1 : EReal) ≠ ⊤ := by
    rw [← EReal.coe_one]; exact EReal.coe_ne_top 1
  have ht : min 1 x ≠ ⊤ := ne_top_of_le_ne_top h1t h1
  have hco : ((min 1 x).toReal : EReal) = min 1 x := EReal.coe_toReal ht hb
  constructor
  · have : ((0 : ℝ) : EReal) ≤ ((min 1 x).toReal : EReal) := by
      rw [hco]; exact_mod_cast h0
    exact_mod_cast this
  · have : ((min 1 x).toReal : EReal) ≤ ((1 : ℝ) : EReal) := by
      rw [hco]; exact_mod_cast h1
    exact_mod_cast this

theorem drAlphaLoop_some_nonneg {sub : List ParameterSet → ℝ}
    (hsub : ∀ t, sub t ≤ 1) (tp : List ParameterSet) :
    ∀ (ks : List ℕ) (a1 a2 b1 b2 : ℝ), 0 ≤ a1 → 0 ≤ a2 →
      drAlphaLoop sub tp ks a1 a2 = some (b1, b2) → 0 ≤ b1 ∧ 0 ≤ b2 := by
  intro ks
  induction ks with
  | nil =>
    intro a1 a2 b1 b2 h1 h2 heq
    simp only [drAlphaLoop, Option.some.injEq, Prod.mk.injEq] at heq
    exact ⟨heq.1 ▸ h1, heq.2 ▸ h2⟩
  | cons k ks ih =>
    intro a1 a2 b1 b2 h1 h2 heq
    simp only [drAlphaLoop] at heq
    by_cases hz : a2 * (1 - sub (revSlice tp k)) = 0
    · rw [if_pos hz] at heq; cases heq
    · rw [if_neg hz] at heq
      exact ih _ _ b1 b2
        (mul_nonneg h1 (by linarith [hsub (tp.take (k + 2))]))
        (mul_nonneg h2 (by linarith [hsub (revSlice tp k)])) heq

theorem alphafunF_bounds (f : ℕ) (tp : List ParameterSet)
    (invR : List (List (List ℝ))) :
    0 ≤ alphafunF f tp invR ∧ alphafunF f tp invR ≤ 1 := by
  induction f generalizing tp with
  | zero => simp [alphafunF]
  | succ f ih =>
    rw [alphafunF]
    rcases h : drAlphaLoop (fun t => alphafunF f t invR) tp
        (List.range (tp.length - 1 - 1)) 1 1 with _ | ⟨a1, a2⟩
    · simp
    · simp only []
      have hsub : ∀ t, alphafunF f t invR ≤ 1 := fun t => (ih t).2
      have ha := drAlphaLoop_some_nonneg hsub tp _ 1 1 a1 a2 zero_le_one zero_le_one h
      exact ereal_min_one_toReal_mem
        (ereal_mul_nonneg
          (ereal_mul_nonneg (eexp_nonneg _) (EReal.coe_nonneg.2 ha.2))
          (EReal.coe_nonneg.2 (inv_nonneg.2 ha.1)))

theorem alphafun_bounds (tp : List ParameterSet) (invR : List (List (List ℝ))) :
    0 ≤ alphafun tp invR ∧ alphafun tp invR ≤ 1 :=
  alphafunF_bounds tp.length tp invR

/-! ## Claims -/

/-- C1, counterexample: the single-stage acceptance ratio returned by
`evaluate_likelihood_function` is not `min(1, exp(y))` and is not in
`[0, 1]`: at `ss_candidate = 0`, `ss_current = 2`, `sigma2 = 1`,
`priors = 0`, the returned value exceeds 1, so it differs from its own
`min(1, .)` clamp. -/
theorem C1_counterexample :
    1 < evaluate_likelihood_function ((0 : ℝ) : EReal) ((2 : ℝ) : EReal) 1 0 0 ∧
      evaluate_likelihood_function ((0 : ℝ) : EReal) ((2 : ℝ) : EReal) 1 0 0 ≠
        min 1 (evaluate_likelihood_function ((0 : ℝ) : EReal) ((2 : ℝ) : EReal) 1 0 0) := by
  have harg : (-(((1 / 2 : ℝ)) : EReal)) *
      ((((0 : ℝ) : EReal) - ((2 : ℝ) : EReal)) * (((1 : ℝ)⁻¹ : ℝ) : EReal) +
        ((0 : ℝ) : EReal) - ((0 : ℝ) : EReal)) = ((1 : ℝ) : EReal) := by
    norm_cast
    norm_num
  have hval : evaluate_likelihood_function ((0 : ℝ) : EReal) ((2 : ℝ) : EReal) 1 0 0 =
      ((Real.exp 1 : ℝ) : EReal) := by
    rw [evaluate_likelihood_function, harg, eexp_coe]
  have hgt : (1 : EReal) < ((Real.exp 1 : ℝ) : EReal) := by
    have h2 : (1 : ℝ) < Real.exp 1 := by
      have := Real.add_one_le_exp (1 : ℝ)
      linarith
    exact_mod_cast h2
  constructor
  · rw [hval]; exact hgt
  · rw [hval]
    have : min 1 ((Real.exp 1 : ℝ) : EReal) = 1 := min_eq_left (le_of_lt hgt)
    rw [this]
    exact ne_of_gt hgt

/-- C1, amended: every DR-stage acceptance probability computed by
`alphafun` lies in `[0, 1]`; the single-stage value returned by
`evaluate_likelihood_function` is the uncapped exponential
`exp(-0.5*((ss_candidate - ss_current)/sigma2 + prior_candidate - prior_current))`
(it equals `min(1, exp(y))` only when `y <= 0`, and exceeds 1 otherwise;
the accept decision is unaffected because `alpha >= 1` always accepts). -/
theorem C1_amended :
    (∀ (s1 s2 sigma2 p1 p2 : ℝ),
        evaluate_likelihood_function ((s1 : ℝ) : EReal) ((s2 : ℝ) : EReal) sigma2 p1 p2 =
          ((Real.exp (-(1 / 2) * ((s1 - s2) * sigma2⁻¹ + p1 - p2)) : ℝ) : EReal)) ∧
      (∀ (tp : List ParameterSet) (invR : List (List (List ℝ))),
        0 ≤ alphafun tp invR ∧ alphafun tp invR ≤ 1) := by
  constructor
  · intro s1 s2 sigma2 p1 p2
    have harg : (-(((1 / 2 : ℝ)) : EReal)) *
        ((((s1 : ℝ) : EReal) - ((s2 : ℝ) : EReal)) * ((sigma2⁻¹ : ℝ) : EReal) +
          ((p1 : ℝ) : EReal) - ((p2 : ℝ) : EReal)) =
        ((-(1 / 2) * ((s1 - s2) * sigma2⁻¹ + p1 - p2) : ℝ) : EReal) := by
      norm_cast
    rw [evaluate_likelihood_function, harg, eexp_coe]
  · exact alphafun_bounds

/-- C3: calling `run_delayed_rejection` with `ntry = 1` runs the `while`
loop zero times, so the locals `out_set` and `outbound` of the source are
never assigned and the final `return` raises `UnboundLocalError` instead
of returning the single-stage Metropolis outcome. -/
theorem C3_ntry_one_raises (old_set new_set : ParameterSet)
    (RDR : List (List (List ℝ))) (parameters : ModelParameters)
    (invR : List (List (List ℝ))) (sos_f : List ℝ → EReal)
    (prior_f : List ℝ → ℝ) (s : ℕ → ℝ) :
    run_delayed_rejection old_set new_set RDR 1 parameters invR sos_f prior_f s =
      Except.error "UnboundLocalError: local variable referenced before assignment" := by
  simp [run_delayed_rejection, drLoop]

/-- C8: the log proposal-density ratio `qfun` is exactly `0` when the
stage index `iq` equals the path's current depth `len(trypath) - 2`
(the symmetric-Gaussian midpoint term contributes nothing). -/
theorem C8_qfun_midpoint_zero (iq : ℕ) (trypath : List ParameterSet)
    (invR : List (List (List ℝ))) (h : iq = trypath.length - 2) :
    qfun iq trypath invR = 0 := by
  rw [qfun, if_pos]
  subst h
  rfl

/-- C8 witness: on a concrete three-state path the midpoint `qfun` term
vanishes. -/
theorem C8_qfun_midpoint_zero_witness :
    qfun 1 [({} : ParameterSet), {}, {}] [[[1]]] = 0 :=
  C8_qfun_midpoint_zero 1 [({} : ParameterSet), {}, {}] [[[1]]] rfl

theorem exp_neg_one_lt_half : Real.exp (-1) < 1 / 2 := by
  rw [Real.exp_neg]
  have h2 : (2 : ℝ) < Real.exp 1 := lt_trans (by norm_num) Real.exp_one_gt_d9
  rw [inv_lt_comm₀ (by positivity) (by norm_num)]
  linarith

/-- C2, counterexample: a concrete single-stage Metropolis step that
rejects an in-bounds candidate (accept = false, outbound = 0) returns the
candidate's ParameterSet (theta = [1/2]), not the unchanged current state
(theta = [0]).  Current state: theta [0], ss 10, sigma2 1; candidate draw
0.5 with R = [[1]]; candidate sum-of-squares 12, so alpha = exp(-1) and
the uniform draw 0.5 rejects. -/
theorem C2_counterexample :
    (run_metropolis_step
        { theta := [0], ss := ((10 : ℝ) : EReal), prior := 0, like := 0,
          sigma2 := 1, alpha := 0 }
        ⟨1, [-5], [5], [0], [0]⟩ [[1]] (fun _ => 0) (fun _ => 0)
        (fun _ => ((12 : ℝ) : EReal)) (fun _ => ((11 : ℝ) : EReal))
        (fun _ => (1 / 2 : ℝ))).1 = false ∧
    (run_metropolis_step
        { theta := [0], ss := ((10 : ℝ) : EReal), prior := 0, like := 0,
          sigma2 := 1, alpha := 0 }
        ⟨1, [-5], [5], [0], [0]⟩ [[1]] (fun _ => 0) (fun _ => 0)
        (fun _ => ((12 : ℝ) : EReal)) (fun _ => ((11 : ℝ) : EReal))
        (fun _ => (1 / 2 : ℝ))).2.2.1 = 0 ∧
    ((run_metropolis_step
        { theta := [0], ss := ((10 : ℝ) : EReal), prior := 0, like := 0,
          sigma2 := 1, alpha := 0 }
        ⟨1, [-5], [5], [0], [0]⟩ [[1]] (fun _ => 0) (fun _ => 0)
        (fun _ => ((12 : ℝ) : EReal)) (fun _ => ((11 : ℝ) : EReal))
        (fun _ => (1 / 2 : ℝ))).2.1).theta = [1 / 2] ∧
    ([1 / 2] : List ℝ) ≠ ([0] : List ℝ) := by
  have hcand : (sample_candidate_from_gaussian_proposal 1 [0] [[1]]
      (fun _ => (1 / 2 : ℝ))).1 = [1 / 2] := by
    simp [sample_candidate_from_gaussian_proposal, takeS, vecmatmul, addvec, scalevec]
  have hnb : ¬ outside_bounds [(1 / 2 : ℝ)] (indexSel [-5] [0]) (indexSel [5] [0]) := by
    intro h
    rcases h with ⟨i, hi, h⟩ | ⟨i, hi, h⟩ <;>
      · have hi0 : i = 0 := by
          simp only [List.length_singleton, Nat.lt_one_iff] at hi
          exact hi
        subst hi0
        simp [indexSel, List.getD] at h
        norm_num at h
  have harg : (-(((1 / 2 : ℝ)) : EReal)) *
      ((((12 : ℝ) : EReal) - ((10 : ℝ) : EReal)) * (((1 : ℝ)⁻¹ : ℝ) : EReal) +
        ((0 : ℝ) : EReal) - ((0 : ℝ) : EReal)) = ((-1 : ℝ) : EReal) := by
    norm_cast
    norm_num
  have halpha : evaluate_likelihood_function ((12 : ℝ) : EReal) ((10 : ℝ) : EReal) 1 0 0 =
      ((Real.exp (-1) : ℝ) : EReal) := by
    rw [evaluate_likelihood_function, harg, eexp_coe]
  have hlt1 : ¬ (1 : EReal) ≤ ((Real.exp (-1) : ℝ) : EReal) := by
    rw [← EReal.coe_one, EReal.coe_le_coe_iff]
    have := exp_neg_one_lt_half
    linarith
  have hu2 : ¬ (((1 / 2 : ℝ)) : EReal) < ((Real.exp (-1) : ℝ) : EReal) := by
    rw [EReal.coe_lt_coe_iff]
    have := exp_neg_one_lt_half
    linarith
  have hu2R : ¬ ((1 / 2 : ℝ) < Real.exp (-1)) := by
    have := exp_neg_one_lt_half
    linarith
  refine ⟨?_, ?_, ?_, by norm_num⟩ <;>
    · rw [run_metropolis_step]
      rw [show (sample_candidate_from_gaussian_proposal 1
          ({ theta := [0], ss := ((10 : ℝ) : EReal), prior := 0, like := 0,
             sigma2 := 1, alpha := 0 } : ParameterSet).theta [[1]]
          (fun _ => (1 / 2 : ℝ))).1 = [1 / 2] from hcand]
      rw [if_neg hnb]
      try norm_num [scatter_update, acceptance_test, halpha, shiftS, hlt1, hu2, hu2R]

/-- C2, amended: whenever the candidate is in bounds, the ParameterSet
returned by `run_metropolis_step` is the one built from the candidate
(`newset`, the features of the proposal), whether the step accepted or
rejected; reverting to the current state on rejection is the caller's
responsibility. -/
theorem C2_amended (old_set : ParameterSet) (parameters : ModelParameters)
    (R : List (List ℝ)) (prior_f like_f : List ℝ → ℝ)
    (likesos_f sos_f : List ℝ → EReal) (s : ℕ → ℝ)
    (h : ¬ outside_bounds
      ((sample_candidate_from_gaussian_proposal parameters.npar old_set.theta R s).1)
      (indexSel parameters.lower_limits parameters.parind)
      (indexSel parameters.upper_limits parameters.parind)) :
    ((run_metropolis_step old_set parameters R prior_f like_f likesos_f sos_f s).2.1).theta =
      (sample_candidate_from_gaussian_proposal parameters.npar old_set.theta R s).1 := by
  rw [run_metropolis_step, if_neg h]

/-- C2 witness: the amended statement at the concrete rejecting step of
the counterexample. -/
theorem C2_amended_witness :
    ((run_metropolis_step
        { theta := [0], ss := ((10 : ℝ) : EReal), prior := 0, like := 0,
          sigma2 := 1, alpha := 0 }
        ⟨1, [-5], [5], [0], [0]⟩ [[1]] (fun _ => 0) (fun _ => 0)
        (fun _ => ((12 : ℝ) : EReal)) (fun _ => ((11 : ℝ) : EReal))
        (fun _ => (1 / 2 : ℝ))).2.1).theta =
      (sample_candidate_from_gaussian_proposal 1 [0] [[1]] (fun _ => (1 / 2 : ℝ))).1 := by
  have hcand : (sample_candidate_from_gaussian_proposal 1 [0] [[1]]
      (fun _ => (1 / 2 : ℝ))).1 = [1 / 2] := by
    simp [sample_candidate_from_gaussian_proposal, takeS, vecmatmul, addvec, scalevec]
  have hnb : ¬ outside_bounds [(1 / 2 : ℝ)] (indexSel [-5] [0]) (indexSel [5] [0]) := by
    intro h
    rcases h with ⟨i, hi, h⟩ | ⟨i, hi, h⟩ <;>
      · have hi0 : i = 0 := by
          simp only [List.length_singleton, Nat.lt_one_iff] at hi
          exact hi
        subst hi0
        simp [indexSel, List.getD] at h
        norm_num at h
  exact C2_amended _ _ _ _ _ _ _ _ (by rw [hcand]; exact hnb)

/-! ## Concrete evaluation lemmas for alphafun -/

theorem logposteriorratio_real (a b : ℝ) (x1 x2 : ParameterSet)
    (h1 : x1.ss = ((a : ℝ) : EReal)) (h2 : x2.ss = ((b : ℝ) : EReal)) :
    logposteriorratio x1 x2 =
      ((-(1 / 2) * ((b * x2.sigma2⁻¹ - a * x1.sigma2⁻¹) + x2.prior - x1.prior) : ℝ) : EReal) := by
  rw [logposteriorratio, h1, h2]
  norm_cast

theorem alphaY_pair (x1 x2 : ParameterSet) (invR : List (List (List ℝ))) :
    alphaY [x1, x2] invR = logposteriorratio x1 x2 := by
  have hq : qfun 0 [x1, x2] invR = 0 := by
    rw [qfun, if_pos]
    rfl
  simp [alphaY, List.range_succ, hq]

theorem alphafunF_pair (f : ℕ) (x1 x2 : ParameterSet) (invR : List (List (List ℝ))) :
    alphafunF (f + 1) [x1, x2] invR =
      (min 1 (eexp (logposteriorratio x1 x2))).toReal := by
  rw [alphafunF]
  have hloop : drAlphaLoop (fun t => alphafunF f t invR) [x1, x2]
      (List.range ([x1, x2].length - 1 - 1)) 1 1 = some (1, 1) := by
    rfl
  rw [hloop]
  rw [alphaY_pair]
  norm_num

theorem min_one_coe_toReal_of_one_le {x : ℝ} (h : 1 ≤ x) :
    (min 1 ((x : ℝ) : EReal)).toReal = 1 := by
  rw [min_eq_left (by exact_mod_cast h), EReal.toReal_one]

theorem min_one_coe_toReal_of_le_one {x : ℝ} (h : x ≤ 1) :
    (min 1 ((x : ℝ) : EReal)).toReal = x := by
  rw [min_eq_right (by exact_mod_cast h), EReal.toReal_coe]

/-- First element of the concrete trial path: the chain's current state. -/
def pA0 : ParameterSet :=
  { theta := [0], ss := ((4 : ℝ) : EReal), prior := 0, like := 0, sigma2 := 1, alpha := 0 }

/-- Second element: a first retry with strictly smaller misfit than the
current state, so the depth-1 forward sub-alpha is exactly 1. -/
def pA1 : ParameterSet :=
  { theta := [1], ss := ((2 : ℝ) : EReal), prior := 0, like := 0, sigma2 := 1, alpha := 0 }

/-- Third element: a second retry, better still. -/
def pA2 : ParameterSet :=
  { theta := [2], ss := ((1 : ℝ) : EReal), prior := 0, like := 0, sigma2 := 1, alpha := 0 }

/-- The concrete trial path used to exercise the DR recursion. -/
def pathA : List ParameterSet := [pA0, pA1, pA2]

theorem one_le_exp_one : (1 : ℝ) ≤ Real.exp 1 := by
  have h0 := Real.exp_le_exp.mpr (show (0 : ℝ) ≤ 1 by norm_num)
  rwa [Real.exp_zero] at h0

theorem exp_neg_half_le_one : Real.exp (-(1 / 2)) ≤ 1 := by
  have h0 := Real.exp_le_exp.mpr (show -(1 / 2 : ℝ) ≤ 0 by norm_num)
  rwa [Real.exp_zero] at h0

theorem exp_neg_half_lt_one : Real.exp (-(1 / 2)) < 1 := by
  have h0 := Real.exp_lt_exp.mpr (show -(1 / 2 : ℝ) < 0 by norm_num)
  rwa [Real.exp_zero] at h0

theorem pathA_sub01 : alphafunF 2 (pathA.take 2) [[[1]]] = 1 := by
  rw [show pathA.take 2 = [pA0, pA1] from rfl]
  rw [show (2 : ℕ) = 1 + 1 from rfl]
  rw [alphafunF_pair]
  rw [logposteriorratio_real 4 2 pA0 pA1 rfl rfl]
  rw [show (-(1 / 2) * ((2 * pA1.sigma2⁻¹ - 4 * pA0.sigma2⁻¹) + pA1.prior - pA0.prior) : ℝ)
      = 1 from by norm_num [pA0, pA1]]
  rw [eexp_coe]
  exact min_one_coe_toReal_of_one_le one_le_exp_one

theorem pathA_sub21 : alphafunF 2 (revSlice pathA 0) [[[1]]] = Real.exp (-(1 / 2)) := by
  rw [show revSlice pathA 0 = [pA2, pA1] from rfl]
  rw [show (2 : ℕ) = 1 + 1 from rfl]
  rw [alphafunF_pair]
  rw [logposteriorratio_real 1 2 pA2 pA1 rfl rfl]
  rw [show (-(1 / 2) * ((2 * pA1.sigma2⁻¹ - 1 * pA2.sigma2⁻¹) + pA1.prior - pA2.prior) : ℝ)
      = -(1 / 2) from by norm_num [pA1, pA2]]
  rw [eexp_coe]
  exact min_one_coe_toReal_of_le_one exp_neg_half_le_one

theorem pathA_loop : drAlphaLoop (fun t => alphafunF 2 t [[[1]]]) pathA
    (List.range 1) 1 1 = some (0, 1 - Real.exp (-(1 / 2))) := by
  have hne : (1 : ℝ) * (1 - Real.exp (-(1 / 2))) ≠ 0 := by
    have h0 := exp_neg_half_lt_one
    intro hEq
    rw [one_mul] at hEq
    linarith
  rw [show List.range 1 = [0] from rfl, drAlphaLoop]
  simp only [Nat.zero_add, pathA_sub01, pathA_sub21]
  rw [if_neg hne]
  rw [drAlphaLoop]
  norm_num

/-- C4: the a1 = 0 case is not trapped.  On the concrete path `pathA`
(whose depth-1 forward sub-alpha is exactly 1) the recursion's loop
produces `a1 = 0`, and `alphafun` still evaluates the unguarded
expression `min(1, exp(y) * a2 * a1**(-1))` with `a1 = 0`, returning an
ordinary value instead of raising a fatal internal error.  (In numpy,
`0.0 ** (-1)` yields `inf` with only a RuntimeWarning, so the call
returns `min(1, inf) = 1`; under the Lean convention `(0 : ℝ)⁻¹ = 0` the
same expression evaluates to 0.  Either way no assertion fires.) -/
theorem C4_a1_zero_division_reached :
    drAlphaLoop (fun t => alphafunF 2 t [[[1]]]) pathA (List.range 1) 1 1 =
        some (0, 1 - Real.exp (-(1 / 2))) ∧
      alphafun pathA [[[1]]] =
        (min 1 (eexp (alphaY pathA [[[1]]]) *
          (((1 - Real.exp (-(1 / 2)) : ℝ)) : EReal) * ((((0 : ℝ)⁻¹ : ℝ)) : EReal))).toReal ∧
      alphafun pathA [[[1]]] = 0 := by
  have hlen : pathA.length = 3 := by rfl
  have hmain : alphafun pathA [[[1]]] =
      (min 1 (eexp (alphaY pathA [[[1]]]) *
        (((1 - Real.exp (-(1 / 2)) : ℝ)) : EReal) * ((((0 : ℝ)⁻¹ : ℝ)) : EReal))).toReal := by
    rw [alphafun, hlen, alphafunF]
    rw [show pathA.length - 1 - 1 = 1 from by rw [hlen]]
    rw [pathA_loop]
  refine ⟨pathA_loop, hmain, ?_⟩
  rw [hmain]
  rw [inv_zero]
  rw [show (((0 : ℝ)) : EReal) = (0 : EReal) from rfl, mul_zero]
  rw [min_eq_right (by norm_num)]
  exact EReal.toReal_zero

/-! ## The a2 short-circuit of alphafun (C5) -/

theorem drAlphaLoopT_fst {subT : List ParameterSet → ATrace}
    {subF : List ParameterSet → ℝ} (hlink : ∀ t, (subT t).val = subF t)
    (tp : List ParameterSet) :
    ∀ (ks : List ℕ) (a1 a2 : ℝ) (c cl cq : ℕ),
      (drAlphaLoopT subT tp ks a1 a2 c cl cq).1 = drAlphaLoop subF tp ks a1 a2 := by
  intro ks
  induction ks with
  | nil => intro a1 a2 c cl cq; rfl
  | cons k ks ih =>
    intro a1 a2 c cl cq
    rw [drAlphaLoopT, drAlphaLoop]
    simp only [hlink]
    by_cases hz : a2 * (1 - subF (revSlice tp k)) = 0
    · rw [if_pos hz, if_pos hz]
    · rw [if_neg hz, if_neg hz]
      exact ih _ _ _ _ _

theorem alphafunT_val (f : ℕ) (tp : List ParameterSet)
    (invR : List (List (List ℝ))) :
    (alphafunT f tp invR).val = alphafunF f tp invR := by
  induction f generalizing tp with
  | zero => rfl
  | succ f ih =>
    rw [alphafunT, alphafunF]
    have hfst := drAlphaLoopT_fst (fun t => ih t) tp
      (List.range (tp.length - 1 - 1)) 1 1 0 0 0
    rcases hT : drAlphaLoopT (fun t => alphafunT f t invR) tp
        (List.range (tp.length - 1 - 1)) 1 1 0 0 0 with ⟨r, c, cl, cq⟩
    rw [hT] at hfst
    rcases r with _ | ⟨a1, a2⟩
    · rw [← hfst]
    · rw [← hfst]

/-- If a later-stage sub-alpha on the reversed slice at index `j` is
exactly 1 and none before it is, the loop short-circuits at iteration `j`
and returns `none`, no matter what iterations would have followed. -/
theorem drAlphaLoop_hits_none {sub : List ParameterSet → ℝ}
    {tp : List ParameterSet} {j : ℕ} (hone : sub (revSlice tp j) = 1) :
    ∀ (len s : ℕ) (a1 a2 : ℝ), a2 ≠ 0 → s ≤ j → j < s + len →
      (∀ i, s ≤ i → i < j → sub (revSlice tp i) ≠ 1) →
      drAlphaLoop sub tp (List.range' s len) a1 a2 = none := by
  intro len
  induction len with
  | zero => intro s a1 a2 _ hsj hj _; omega
  | succ len ih =>
    intro s a1 a2 ha2 hsj hjlt hfirst
    rw [List.range'_succ, drAlphaLoop]
    by_cases hs : s = j
    · subst hs
      rw [hone]
      rw [if_pos (by ring_nf)]
    · have hslt : s < j := lt_of_le_of_ne hsj hs
      have hfac : sub (revSlice tp s) ≠ 1 := hfirst s le_rfl hslt
      rw [if_neg (mul_ne_zero ha2 (sub_ne_zero.2 (Ne.symm hfac)))]
      exact ih (s + 1) _ _ (mul_ne_zero ha2 (sub_ne_zero.2 (Ne.symm hfac)))
        hslt (by omega) (fun i h1 h2 => hfirst i (by omega) h2)

/-- Counts accumulated by the instrumented loop when it short-circuits at
iteration `j`: exactly the sub-call counts of iterations `s..j`. -/
theorem drAlphaLoopT_hits {subT : List ParameterSet → ATrace}
    {tp : List ParameterSet} {j : ℕ} (hone : (subT (revSlice tp j)).val = 1) :
    ∀ (len s : ℕ) (a1 a2 : ℝ) (c cl cq : ℕ), a2 ≠ 0 → s ≤ j → j < s + len →
      (∀ i, s ≤ i → i < j → (subT (revSlice tp i)).val ≠ 1) →
      drAlphaLoopT subT tp (List.range' s len) a1 a2 c cl cq =
        (none,
          c + ((List.range' s (j + 1 - s)).map (fun i =>
            (subT (tp.take (i + 2))).calls + (subT (revSlice tp i)).calls)).sum,
          cl + ((List.range' s (j + 1 - s)).map (fun i =>
            (subT (tp.take (i + 2))).nlpr + (subT (revSlice tp i)).nlpr)).sum,
          cq + ((List.range' s (j + 1 - s)).map (fun i =>
            (subT (tp.take (i + 2))).nq + (subT (revSlice tp i)).nq)).sum) := by
  intro len
  induction len with
  | zero => intro s a1 a2 c cl cq _ hsj hj _; omega
  | succ len ih =>
    intro s a1 a2 c cl cq ha2 hsj hjlt hfirst
    rw [List.range'_succ, drAlphaLoopT]
    by_cases hs : s = j
    · subst hs
      rw [hone]
      rw [if_pos (by ring_nf)]
      rw [show s + 1 - s = 1 from by omega]
      rw [show List.range' s 1 = [s] from rfl]
      simp only [List.map_cons, List.map_nil, List.sum_cons, List.sum_nil, Prod.mk.injEq]
      refine ⟨trivial, by omega, by omega, by omega⟩
    · have hslt : s < j := lt_of_le_of_ne hsj hs
      have hfac : (subT (revSlice tp s)).val ≠ 1 := hfirst s le_rfl hslt
      rw [if_neg (mul_ne_zero ha2 (sub_ne_zero.2 (Ne.symm hfac)))]
      rw [ih (s + 1) _ _ _ _ _ (mul_ne_zero ha2 (sub_ne_zero.2 (Ne.symm hfac)))
        hslt (by omega) (fun i h1 h2 => hfirst i (by omega) h2)]
      have hsplit : List.range' s (j + 1 - s) = s :: List.range' (s + 1) (j + 1 - (s + 1)) := by
        rw [show j + 1 - s = (j + 1 - (s + 1)) + 1 from by omega]
        rw [List.range'_succ]
      rw [hsplit]
      simp only [List.map_cons, List.sum_cons, Prod.mk.injEq]
      refine ⟨trivial, by omega, by omega, by omega⟩

theorem one_le_exp_of_nonneg {x : ℝ} (h : 0 ≤ x) : 1 ≤ Real.exp x := by
  have h0 := Real.exp_le_exp.mpr h
  rwa [Real.exp_zero] at h0

/-- C5: if, while accumulating the backward product `a2`, some factor
`1 - alphafun(trypath[stage:stage-j-2:-1])` is zero (the sub-alpha is
exactly 1, which is the only way a real product can become 0) at
iteration `j` and at no earlier iteration, then the stage acceptance
probability is returned as 0 immediately; the instrumented trace shows
the call evaluates no `logposteriorratio` and no `qfun` of its own and
performs exactly the recursive sub-calls of iterations `0..j`, none
beyond. -/
theorem C5_a2_shortcircuit (f : ℕ) (tp : List ParameterSet)
    (invR : List (List (List ℝ))) (j : ℕ)
    (hj : j + 3 ≤ tp.length)
    (hone : alphafunF f (revSlice tp j) invR = 1)
    (hfirst : ∀ i < j, alphafunF f (revSlice tp i) invR ≠ 1) :
    alphafunF (f + 1) tp invR = 0 ∧
      alphafunT (f + 1) tp invR =
        ⟨0,
          1 + ((List.range (j + 1)).map (fun i =>
            (alphafunT f (tp.take (i + 2)) invR).calls +
              (alphafunT f (revSlice tp i) invR).calls)).sum,
          ((List.range (j + 1)).map (fun i =>
            (alphafunT f (tp.take (i + 2)) invR).nlpr +
              (alphafunT f (revSlice tp i) invR).nlpr)).sum,
          ((List.range (j + 1)).map (fun i =>
            (alphafunT f (tp.take (i + 2)) invR).nq +
              (alphafunT f (revSlice tp i) invR).nq)).sum⟩ := by
  have hlt : j < 0 + (tp.length - 1 - 1) := by omega
  constructor
  · rw [alphafunF, List.range_eq_range']
    rw [drAlphaLoop_hits_none hone (tp.length - 1 - 1) 0 1 1 one_ne_zero
      (Nat.zero_le j) hlt (fun i _ h2 => hfirst i h2)]
  · have honeT : (alphafunT f (revSlice tp j) invR).val = 1 := by
      rw [alphafunT_val]; exact hone
    have hfirstT : ∀ i, 0 ≤ i → i < j → (alphafunT f (revSlice tp i) invR).val ≠ 1 := by
      intro i _ h2
      rw [alphafunT_val]
      exact hfirst i h2
    rw [alphafunT, List.range_eq_range']
    rw [drAlphaLoopT_hits honeT (tp.length - 1 - 1) 0 1 1 0 0 0 one_ne_zero
      (Nat.zero_le j) hlt hfirstT]
    simp only [Nat.zero_add, Nat.sub_zero, Nat.add_zero]
    rw [← List.range_eq_range']

/-- Second element of the short-circuit path: ss 1. -/
def pB1 : ParameterSet :=
  { theta := [1], ss := ((1 : ℝ) : EReal), prior := 0, like := 0, sigma2 := 1, alpha := 0 }

/-- Third element of the short-circuit path: ss 2, worse than the second,
so the reversed depth-1 sub-alpha is exactly 1. -/
def pB2 : ParameterSet :=
  { theta := [2], ss := ((2 : ℝ) : EReal), prior := 0, like := 0, sigma2 := 1, alpha := 0 }

/-- Trial path on which the backward product a2 vanishes at the first
loop iteration. -/
def pathB : List ParameterSet := [pA0, pB1, pB2]

theorem pathB_sub21 : alphafunF 2 (revSlice pathB 0) [[[1]]] = 1 := by
  rw [show revSlice pathB 0 = [pB2, pB1] from rfl]
  rw [show (2 : ℕ) = 1 + 1 from rfl]
  rw [alphafunF_pair]
  rw [logposteriorratio_real 2 1 pB2 pB1 rfl rfl]
  rw [show (-(1 / 2) * ((1 * pB1.sigma2⁻¹ - 2 * pB2.sigma2⁻¹) + pB1.prior - pB2.prior) : ℝ)
      = 1 / 2 from by norm_num [pB1, pB2]]
  rw [eexp_coe]
  exact min_one_coe_toReal_of_one_le (one_le_exp_of_nonneg (by norm_num))

/-- C5 witness: the short-circuit theorem applied to the concrete path
`pathB`, on which the first backward factor vanishes. -/
theorem C5_a2_shortcircuit_witness :
    ((0 : ℕ) + 3 ≤ pathB.length ∧ alphafunF 2 (revSlice pathB 0) [[[1]]] = 1) ∧
      (alphafunF (2 + 1) pathB [[[1]]] = 0 ∧
        alphafunT (2 + 1) pathB [[[1]]] =
          ⟨0,
            1 + ((List.range (0 + 1)).map (fun i =>
              (alphafunT 2 (pathB.take (i + 2)) [[[1]]]).calls +
                (alphafunT 2 (revSlice pathB i) [[[1]]]).calls)).sum,
            ((List.range (0 + 1)).map (fun i =>
              (alphafunT 2 (pathB.take (i + 2)) [[[1]]]).nlpr +
                (alphafunT 2 (revSlice pathB i) [[[1]]]).nlpr)).sum,
            ((List.range (0 + 1)).map (fun i =>
              (alphafunT 2 (pathB.take (i + 2)) [[[1]]]).nq +
                (alphafunT 2 (revSlice pathB i) [[[1]]]).nq)).sum⟩) :=
  ⟨⟨by decide, pathB_sub21⟩,
    C5_a2_shortcircuit 2 pathB [[[1]]] 0 (by decide) pathB_sub21
      (fun i h => absurd h (Nat.not_lt_zero i))⟩

/-! ## Out-of-bounds behaviour (C6) -/

/-- C6: out-of-bounds candidates short-circuit both transition kernels.
Metropolis part: when the proposal is out of bounds, the step result does
not depend on any of the four model collaborators (they are never
invoked), the step reports `accept = false`, `outbound = 1`, and the
result state carries `ss = +infinity`, `prior = 0`, `alpha = 0`.
DR part: when a stage's candidate is out of bounds, the iteration result
does not depend on the `sos`/`prior` collaborators, the out-of-bounds
state (`ss = +infinity`, `prior = 0`, `alpha = 0`) is appended to the
trial path, `outbound` is set to 1, the fallback result is the unchanged
`old_set`, `accept` is untouched, and `itry` still advances (the trial
counts toward `maxTries` and the loop moves on to the next stage). -/
theorem C6_out_of_bounds :
    (∀ (old_set : ParameterSet) (parameters : ModelParameters) (R : List (List ℝ))
        (pf lf : List ℝ → ℝ) (lsf sf : List ℝ → EReal) (pf2 lf2 : List ℝ → ℝ)
        (lsf2 sf2 : List ℝ → EReal) (s : ℕ → ℝ),
      outside_bounds
          ((sample_candidate_from_gaussian_proposal parameters.npar old_set.theta R s).1)
          (indexSel parameters.lower_limits parameters.parind)
          (indexSel parameters.upper_limits parameters.parind) →
        run_metropolis_step old_set parameters R pf lf lsf sf s =
            run_metropolis_step old_set parameters R pf2 lf2 lsf2 sf2 s ∧
          (run_metropolis_step old_set parameters R pf lf lsf sf s).1 = false ∧
          ((run_metropolis_step old_set parameters R pf lf lsf sf s).2.1).ss = ⊤ ∧
          ((run_metropolis_step old_set parameters R pf lf lsf sf s).2.1).prior = 0 ∧
          ((run_metropolis_step old_set parameters R pf lf lsf sf s).2.1).alpha = 0 ∧
          (run_metropolis_step old_set parameters R pf lf lsf sf s).2.2.1 = 1) ∧
    (∀ (old_set new_set : ParameterSet) (RDR : List (List (List ℝ)))
        (parameters : ModelParameters) (invR : List (List (List ℝ)))
        (sos_f : List ℝ → EReal) (prior_f : List ℝ → ℝ)
        (sos_f2 : List ℝ → EReal) (prior_f2 : List ℝ → ℝ) (st : DRState),
      outside_bounds
          (addvec old_set.theta (vecmatmul (takeS st.stream parameters.npar)
            (RDR.getD (st.itry + 1 - 1) [])))
          (indexSel parameters.lower_limits parameters.parind)
          (indexSel parameters.upper_limits parameters.parind) →
        drIter old_set new_set RDR parameters invR sos_f prior_f st =
            drIter old_set new_set RDR parameters invR sos_f2 prior_f2 st ∧
          (drIter old_set new_set RDR parameters invR sos_f prior_f st).trypath =
            st.trypath ++
              [{ theta := addvec old_set.theta (vecmatmul (takeS st.stream parameters.npar)
                    (RDR.getD (st.itry + 1 - 1) [])),
                 sigma2 := new_set.sigma2, alpha := 0, prior := 0, ss := ⊤ }] ∧
          (drIter old_set new_set RDR parameters invR sos_f prior_f st).outbound = some 1 ∧
          (drIter old_set new_set RDR parameters invR sos_f prior_f st).out_set =
            some old_set ∧
          (drIter old_set new_set RDR parameters invR sos_f prior_f st).accept = st.accept ∧
          (drIter old_set new_set RDR parameters invR sos_f prior_f st).itry = st.itry + 1 ∧
          (drIter old_set new_set RDR parameters invR sos_f prior_f st).stream =
            shiftS st.stream parameters.npar) := by
  constructor
  · intro old_set parameters R pf lf lsf sf pf2 lf2 lsf2 sf2 s h
    refine ⟨?_, ?_, ?_, ?_, ?_, ?_⟩ <;>
      · simp only [run_metropolis_step]
        rw [if_pos h]
        try rw [if_pos h]
        try rfl
  · intro old_set new_set RDR parameters invR sos_f prior_f sos_f2 prior_f2 st h
    refine ⟨?_, ?_, ?_, ?_, ?_, ?_, ?_⟩ <;>
      · simp only [drIter]
        rw [if_pos h]
        try rw [if_pos h]
        try rfl

/-! ## Random-draw consumption per DR stage (C7) -/

/-- C7, amended: each executed DR stage consumes the next `npar` stream
variates for the candidate draw, and then consumes one further uniform
variate for the accept/reject test only when the candidate is in bounds
and its stage alpha is < 1: an out-of-bounds stage `continue`s before
the test, and `alpha >= 1` accepts through Python's short-circuit `or`
without drawing. -/
theorem C7_amended (old_set new_set : ParameterSet) (RDR : List (List (List ℝ)))
    (parameters : ModelParameters) (invR : List (List (List ℝ)))
    (sos_f : List ℝ → EReal) (prior_f : List ℝ → ℝ) (st : DRState) :
    (drIter old_set new_set RDR parameters invR sos_f prior_f st).stream =
      (if outside_bounds
          (addvec old_set.theta (vecmatmul (takeS st.stream parameters.npar)
            (RDR.getD (st.itry + 1 - 1) [])))
          (indexSel parameters.lower_limits parameters.parind)
          (indexSel parameters.upper_limits parameters.parind)
        then shiftS st.stream parameters.npar
        else if 1 ≤ alphafun (st.trypath ++
            [{ theta := addvec old_set.theta (vecmatmul (takeS st.stream parameters.npar)
                  (RDR.getD (st.itry + 1 - 1) [])),
               sigma2 := new_set.sigma2,
               ss := sos_f (addvec old_set.theta (vecmatmul (takeS st.stream parameters.npar)
                  (RDR.getD (st.itry + 1 - 1) []))),
               prior := prior_f (addvec old_set.theta (vecmatmul (takeS st.stream parameters.npar)
                  (RDR.getD (st.itry + 1 - 1) []))) }]) invR
          then shiftS st.stream parameters.npar
          else shiftS st.stream (parameters.npar + 1)) := by
  simp only [drIter]
  by_cases h1 : outside_bounds
      (addvec old_set.theta (vecmatmul (takeS st.stream parameters.npar)
        (RDR.getD (st.itry + 1 - 1) [])))
      (indexSel parameters.lower_limits parameters.parind)
      (indexSel parameters.upper_limits parameters.parind)
  · rw [if_pos h1, if_pos h1]
  · rw [if_neg h1, if_neg h1]
    by_cases h2 : 1 ≤ alphafun (st.trypath ++
        [{ theta := addvec old_set.theta (vecmatmul (takeS st.stream parameters.npar)
              (RDR.getD (st.itry + 1 - 1) [])),
           sigma2 := new_set.sigma2,
           ss := sos_f (addvec old_set.theta (vecmatmul (takeS st.stream parameters.npar)
              (RDR.getD (st.itry + 1 - 1) []))),
           prior := prior_f (addvec old_set.theta (vecmatmul (takeS st.stream parameters.npar)
              (RDR.getD (st.itry + 1 - 1) []))) }]) invR
    · rw [if_pos h2, if_pos h2]
    · rw [if_neg h2, if_neg h2]
      by_cases h3 : (shiftS st.stream parameters.npar) 0 < alphafun (st.trypath ++
          [{ theta := addvec old_set.theta (vecmatmul (takeS st.stream parameters.npar)
                (RDR.getD (st.itry + 1 - 1) [])),
             sigma2 := new_set.sigma2,
             ss := sos_f (addvec old_set.theta (vecmatmul (takeS st.stream parameters.npar)
                (RDR.getD (st.itry + 1 - 1) []))),
             prior := prior_f (addvec old_set.theta (vecmatmul (takeS st.stream parameters.npar)
                (RDR.getD (st.itry + 1 - 1) []))) }]) invR
      · rw [if_pos h3]
        exact shiftS_shiftS st.stream parameters.npar 1
      · rw [if_neg h3]
        exact shiftS_shiftS st.stream parameters.npar 1

/-! ## A concrete DR run with an out-of-bounds stage -/

theorem drIter_oob (old_set new_set : ParameterSet) (RDR : List (List (List ℝ)))
    (parameters : ModelParameters) (invR : List (List (List ℝ)))
    (sos_f : List ℝ → EReal) (prior_f : List ℝ → ℝ) (st : DRState)
    (h : outside_bounds
      (addvec old_set.theta (vecmatmul (takeS st.stream parameters.npar)
        (RDR.getD (st.itry + 1 - 1) [])))
      (indexSel parameters.lower_limits parameters.parind)
      (indexSel parameters.upper_limits parameters.parind)) :
    drIter old_set new_set RDR parameters invR sos_f prior_f st =
      { accept := st.accept, itry := st.itry + 1,
        trypath := st.trypath ++
          [{ theta := addvec old_set.theta (vecmatmul (takeS st.stream parameters.npar)
                (RDR.getD (st.itry + 1 - 1) [])),
             sigma2 := new_set.sigma2, alpha := 0, prior := 0, ss := ⊤ }],
        out_set := some old_set, outbound := some 1, iacce := st.iacce,
        stream := shiftS st.stream parameters.npar } := by
  simp only [drIter]
  rw [if_pos h]

/-- The concrete random stream 7, 6, 5, ... of the out-of-bounds run. -/
def s7 : ℕ → ℝ := fun i => 7 - (i : ℝ)

/-- The concrete model parameters used in the DR runs: one parameter with
box `[-5, 5]`. -/
def drPar : ModelParameters := ⟨1, [-5], [5], [0], [0]⟩

theorem cand7_eq : addvec pA0.theta (vecmatmul (takeS s7 1)
    (([[[1]], [[1]]] : List (List (List ℝ))).getD (1 + 1 - 1) [])) = [(7 : ℝ)] := by
  simp [pA0, addvec, vecmatmul, takeS, scalevec, s7, List.range_succ]

theorem oob7 : outside_bounds [(7 : ℝ)] (indexSel [-5] [0]) (indexSel [5] [0]) := by
  refine Or.inr ⟨0, by norm_num, ?_⟩
  norm_num [indexSel, List.getD]

theorem oob_cand7 : outside_bounds (addvec pA0.theta (vecmatmul (takeS s7 1)
    (([[[1]], [[1]]] : List (List (List ℝ))).getD (1 + 1 - 1) [])))
    (indexSel [-5] [0]) (indexSel [5] [0]) := by
  rw [cand7_eq]
  exact oob7

theorem concrete_drIter :
    drIter pA0 pB1 [[[1]], [[1]]] drPar [[[1]]] (fun _ => ((0 : ℝ) : EReal)) (fun _ => 0)
      { accept := 0, itry := 1, trypath := [pA0, pB1], out_set := none, outbound := none,
        iacce := List.replicate 2 0, stream := s7 } =
      { accept := 0, itry := 2,
        trypath := [pA0, pB1] ++
          [{ theta := addvec pA0.theta (vecmatmul (takeS s7 1)
                (([[[1]], [[1]]] : List (List (List ℝ))).getD (1 + 1 - 1) [])),
             sigma2 := pB1.sigma2, alpha := 0, prior := 0, ss := ⊤ }],
        out_set := some pA0, outbound := some 1, iacce := List.replicate 2 0,
        stream := shiftS s7 1 } :=
  drIter_oob pA0 pB1 [[[1]], [[1]]] drPar [[[1]]] _ _ _ oob_cand7

theorem concrete_dr_run :
    run_delayed_rejection pA0 pB1 [[[1]], [[1]]] 2 drPar [[[1]]]
      (fun _ => ((0 : ℝ) : EReal)) (fun _ => 0) s7 =
      Except.ok (0, pA0, 1, shiftS s7 1) := by
  rw [run_delayed_rejection]
  have h2 : drLoop pA0 pB1 [[[1]], [[1]]] 2 drPar [[[1]]]
      (fun _ => ((0 : ℝ) : EReal)) (fun _ => 0) 2
      { accept := 0, itry := 1, trypath := [pA0, pB1], out_set := none, outbound := none,
        iacce := List.replicate 2 0, stream := s7 } =
      { accept := 0, itry := 2,
        trypath := [pA0, pB1] ++
          [{ theta := addvec pA0.theta (vecmatmul (takeS s7 1)
                (([[[1]], [[1]]] : List (List (List ℝ))).getD (1 + 1 - 1) [])),
             sigma2 := pB1.sigma2, alpha := 0, prior := 0, ss := ⊤ }],
        out_set := some pA0, outbound := some 1, iacce := List.replicate 2 0,
        stream := shiftS s7 1 } := by
    rw [show drLoop pA0 pB1 [[[1]], [[1]]] 2 drPar [[[1]]]
        (fun _ => ((0 : ℝ) : EReal)) (fun _ => 0) 2 = drLoop pA0 pB1 [[[1]], [[1]]] 2 drPar
        [[[1]]] (fun _ => ((0 : ℝ) : EReal)) (fun _ => 0) (1 + 1) from rfl]
    rw [drLoop]
    rw [if_pos ⟨rfl, by norm_num⟩]
    rw [concrete_drIter]
    rw [show (1 : ℕ) = 0 + 1 from rfl]
    rw [drLoop]
    rw [if_neg (fun hcontra => absurd hcontra.2 (by norm_num))]
  rw [h2]

/-- C7, counterexample: a DR run whose single stage is out of bounds
consumes exactly one variate (the candidate draw) and no uniform draw:
the returned stream is the input shifted by 1, not by 2 as the claim
("the uniform draw is consumed even when the stage's candidate is out of
bounds") would require. -/
theorem C7_counterexample :
    run_delayed_rejection pA0 pB1 [[[1]], [[1]]] 2 drPar [[[1]]]
        (fun _ => ((0 : ℝ) : EReal)) (fun _ => 0) s7 =
      Except.ok (0, pA0, 1, shiftS s7 1) ∧ shiftS s7 1 ≠ shiftS s7 2 := by
  refine ⟨concrete_dr_run, fun hEq => ?_⟩
  have h0 := congrFun hEq 0
  simp only [shiftS, s7] at h0
  norm_num at h0

/-- C6 witness: the out-of-bounds theorem at a concrete candidate
(theta = [7], box [-5, 5]) for both kernels, with two different
collaborator bundles (one of which is a stand-in for collaborators that
must not be invoked). -/
theorem C6_out_of_bounds_witness :
    run_metropolis_step pA0 drPar [[1]] (fun _ => 0) (fun _ => 0)
        (fun _ => ((0 : ℝ) : EReal)) (fun _ => ((0 : ℝ) : EReal)) s7 =
      run_metropolis_step pA0 drPar [[1]] (fun _ => 1) (fun _ => 1)
        (fun _ => ((1 : ℝ) : EReal)) (fun _ => ((1 : ℝ) : EReal)) s7 ∧
    ((run_metropolis_step pA0 drPar [[1]] (fun _ => 0) (fun _ => 0)
        (fun _ => ((0 : ℝ) : EReal)) (fun _ => ((0 : ℝ) : EReal)) s7).2.1).ss = ⊤ ∧
    (run_metropolis_step pA0 drPar [[1]] (fun _ => 0) (fun _ => 0)
        (fun _ => ((0 : ℝ) : EReal)) (fun _ => ((0 : ℝ) : EReal)) s7).2.2.1 = 1 ∧
    drIter pA0 pB1 [[[1]], [[1]]] drPar [[[1]]] (fun _ => ((0 : ℝ) : EReal)) (fun _ => 0)
        { accept := 0, itry := 1, trypath := [pA0, pB1], out_set := none, outbound := none,
          iacce := List.replicate 2 0, stream := s7 } =
      drIter pA0 pB1 [[[1]], [[1]]] drPar [[[1]]] (fun _ => ((1 : ℝ) : EReal)) (fun _ => 1)
        { accept := 0, itry := 1, trypath := [pA0, pB1], out_set := none, outbound := none,
          iacce := List.replicate 2 0, stream := s7 } ∧
    (drIter pA0 pB1 [[[1]], [[1]]] drPar [[[1]]] (fun _ => ((0 : ℝ) : EReal)) (fun _ => 0)
        { accept := 0, itry := 1, trypath := [pA0, pB1], out_set := none, outbound := none,
          iacce := List.replicate 2 0, stream := s7 }).outbound = some 1 ∧
    (drIter pA0 pB1 [[[1]], [[1]]] drPar [[[1]]] (fun _ => ((0 : ℝ) : EReal)) (fun _ => 0)
        { accept := 0, itry := 1, trypath := [pA0, pB1], out_set := none, outbound := none,
          iacce := List.replicate 2 0, stream := s7 }).itry = 2 := by
  have hA := C6_out_of_bounds.1 pA0 drPar [[1]] (fun _ => 0) (fun _ => 0)
    (fun _ => ((0 : ℝ) : EReal)) (fun _ => ((0 : ℝ) : EReal)) (fun _ => 1) (fun _ => 1)
    (fun _ => ((1 : ℝ) : EReal)) (fun _ => ((1 : ℝ) : EReal)) s7 oob_cand7
  have hB := C6_out_of_bounds.2 pA0 pB1 [[[1]], [[1]]] drPar [[[1]]]
    (fun _ => ((0 : ℝ) : EReal)) (fun _ => 0) (fun _ => ((1 : ℝ) : EReal)) (fun _ => 1)
    { accept := 0, itry := 1, trypath := [pA0, pB1], out_set := none, outbound := none,
      iacce := List.replicate 2 0, stream := s7 } oob_cand7
  exact ⟨hA.1, hA.2.2.1, hA.2.2.2.2.2, hB.1, hB.2.2.1, hB.2.2.2.2.2.1⟩

/-! ## The returned out-of-bounds flag (C10) -/

/-- Invariant relating the `outbound` local to the last appended trial:
whenever `outbound` has been assigned, it is 1 exactly when the last
element of the trial path (the most recent stage's candidate) is out of
bounds. -/
def drOutboundInv (parameters : ModelParameters) (st : DRState) : Prop :=
  ∀ b, st.outbound = some b →
    b = (if outside_bounds ((st.trypath.getLastD {}).theta)
        (indexSel parameters.lower_limits parameters.parind)
        (indexSel parameters.upper_limits parameters.parind) then 1 else 0)

theorem drIter_outboundInv (old_set new_set : ParameterSet)
    (RDR : List (List (List ℝ))) (parameters : ModelParameters)
    (invR : List (List (List ℝ))) (sos_f : List ℝ → EReal) (prior_f : List ℝ → ℝ)
    (st : DRState) :
    drOutboundInv parameters (drIter old_set new_set RDR parameters invR sos_f prior_f st) := by
  intro b hb
  simp only [drIter] at hb ⊢
  by_cases h1 : outside_bounds
      (addvec old_set.theta (vecmatmul (takeS st.stream parameters.npar)
        (RDR.getD (st.itry + 1 - 1) [])))
      (indexSel parameters.lower_limits parameters.parind)
      (indexSel parameters.upper_limits parameters.parind)
  · rw [if_pos h1] at hb ⊢
    simp only [Option.some.injEq] at hb
    rw [List.getLastD_concat]
    rw [if_pos h1]
    exact hb.symm
  · rw [if_neg h1] at hb ⊢
    by_cases h2 : 1 ≤ alphafun (st.trypath ++
        [{ theta := addvec old_set.theta (vecmatmul (takeS st.stream parameters.npar)
              (RDR.getD (st.itry + 1 - 1) [])),
           sigma2 := new_set.sigma2,
           ss := sos_f (addvec old_set.theta (vecmatmul (takeS st.stream parameters.npar)
              (RDR.getD (st.itry + 1 - 1) []))),
           prior := prior_f (addvec old_set.theta (vecmatmul (takeS st.stream parameters.npar)
              (RDR.getD (st.itry + 1 - 1) []))) }]) invR
    · rw [if_pos h2] at hb ⊢
      simp only [Option.some.injEq] at hb
      rw [List.getLastD_concat]
      rw [if_neg h1]
      exact hb.symm
    · rw [if_neg h2] at hb ⊢
      by_cases h3 : (shiftS st.stream parameters.npar) 0 < alphafun (st.trypath ++
          [{ theta := addvec old_set.theta (vecmatmul (takeS st.stream parameters.npar)
                (RDR.getD (st.itry + 1 - 1) [])),
             sigma2 := new_set.sigma2,
             ss := sos_f (addvec old_set.theta (vecmatmul (takeS st.stream parameters.npar)
                (RDR.getD (st.itry + 1 - 1) []))),
             prior := prior_f (addvec old_set.theta (vecmatmul (takeS st.stream parameters.npar)
                (RDR.getD (st.itry + 1 - 1) []))) }]) invR
      · rw [if_pos h3] at hb ⊢
        simp only [Option.some.injEq] at hb
        rw [List.getLastD_concat]
        rw [if_neg h1]
        exact hb.symm
      · rw [if_neg h3] at hb ⊢
        simp only [Option.some.injEq] at hb
        rw [List.getLastD_concat]
        rw [if_neg h1]
        exact hb.symm

theorem drLoop_outboundInv (old_set new_set : ParameterSet)
    (RDR : List (List (List ℝ))) (ntry : ℕ) (parameters : ModelParameters)
    (invR : List (List (List ℝ))) (sos_f : List ℝ → EReal) (prior_f : List ℝ → ℝ) :
    ∀ (fl : ℕ) (st : DRState), drOutboundInv parameters st →
      drOutboundInv parameters
        (drLoop old_set new_set RDR ntry parameters invR sos_f prior_f fl st) := by
  intro fl
  induction fl with
  | zero => intro st h; exact h
  | succ fl ih =>
    intro st h
    rw [drLoop]
    by_cases hc : st.accept = 0 ∧ st.itry < ntry
    · rw [if_pos hc]
      exact ih _ (drIter_outboundInv old_set new_set RDR parameters invR sos_f prior_f st)
    · rw [if_neg hc]
      exact h

/-- C10: the out-of-bounds flag returned by `run_delayed_rejection`
reflects only the last trial performed: it equals 1 exactly when the last
element of the final trial path (the last sampled stage's candidate) is
out of bounds, regardless of earlier stages. -/
theorem C10_outbound_reflects_last_trial (old_set new_set : ParameterSet)
    (RDR : List (List (List ℝ))) (ntry : ℕ) (parameters : ModelParameters)
    (invR : List (List (List ℝ))) (sos_f : List ℝ → EReal) (prior_f : List ℝ → ℝ)
    (s : ℕ → ℝ) (acc : ℕ) (os : ParameterSet) (ob : ℕ) (s2 : ℕ → ℝ)
    (h : run_delayed_rejection old_set new_set RDR ntry parameters invR sos_f prior_f s =
      Except.ok (acc, os, ob, s2)) :
    ob = (if outside_bounds
        (((drLoop old_set new_set RDR ntry parameters invR sos_f prior_f ntry
          { accept := 0, itry := 1, trypath := [old_set, new_set], out_set := none,
            outbound := none, iacce := List.replicate ntry 0,
            stream := s }).trypath.getLastD {}).theta)
        (indexSel parameters.lower_limits parameters.parind)
        (indexSel parameters.upper_limits parameters.parind) then 1 else 0) := by
  have hinv0 : drOutboundInv parameters
      ({ accept := 0, itry := 1, trypath := [old_set, new_set], out_set := none,
         outbound := none, iacce := List.replicate ntry 0, stream := s } : DRState) := by
    intro b hb
    cases hb
  have hinv := drLoop_outboundInv old_set new_set RDR ntry parameters invR sos_f prior_f
    ntry _ hinv0
  simp only [run_delayed_rejection] at h
  rcases hos : (drLoop old_set new_set RDR ntry parameters invR sos_f prior_f ntry
      { accept := 0, itry := 1, trypath := [old_set, new_set], out_set := none,
        outbound := none, iacce := List.replicate ntry 0, stream := s }).out_set
    with _ | os2 <;>
  rcases hob : (drLoop old_set new_set RDR ntry parameters invR sos_f prior_f ntry
      { accept := 0, itry := 1, trypath := [old_set, new_set], out_set := none,
        outbound := none, iacce := List.replicate ntry 0, stream := s }).outbound
    with _ | ob2 <;>
  rw [hos, hob] at h
  · cases h
  · cases h
  · cases h
  · simp only [Except.ok.injEq, Prod.mk.injEq] at h
    have hob2 := hinv ob2 hob
    rw [← h.2.2.1]
    exact hob2

/-- C10 witness: the flag theorem applied to the concrete out-of-bounds
run. -/
theorem C10_outbound_reflects_last_trial_witness :
    (1 : ℕ) = (if outside_bounds
        (((drLoop pA0 pB1 [[[1]], [[1]]] 2 drPar [[[1]]] (fun _ => ((0 : ℝ) : EReal))
          (fun _ => 0) 2
          { accept := 0, itry := 1, trypath := [pA0, pB1], out_set := none,
            outbound := none, iacce := List.replicate 2 0,
            stream := s7 }).trypath.getLastD {}).theta)
        (indexSel drPar.lower_limits drPar.parind)
        (indexSel drPar.upper_limits drPar.parind) then 1 else 0) :=
  C10_outbound_reflects_last_trial pA0 pB1 [[[1]], [[1]]] 2 drPar [[[1]]]
    (fun _ => ((0 : ℝ) : EReal)) (fun _ => 0) s7 0 pA0 1 (shiftS s7 1) concrete_dr_run

/-! ## Unknown sstype (C9) -/

/-- Error propagation through the per-sample loop: if the first
observation sample of an iteration dies with `sys.exit`, the loop result
is that error. -/
theorem piSampleLoop_cons_error {D : Type} (self : PIState D)
    (s2c : List (List ℝ)) (iisample : List ℕ) (sstype : ℕ) (dpred : D) (ii : ℕ)
    (kk : ℕ) (rest : List ℕ) (theta : List ℝ) (s : ℕ → ℝ)
    (ysave osave : List (List (List ℝ))) (e : String × (ℕ → ℝ))
    (herr : observation_sample
      (((s2c.getD (iisample.getD kk 0) []).drop
          (self.s2chain_index.getD ii (0, 0)).1).take
        ((self.s2chain_index.getD ii (0, 0)).2 - (self.s2chain_index.getD ii (0, 0)).1))
      (self.modelfun dpred
        ((((scatter_update theta self.parind
              (self.chain.getD (iisample.getD kk 0) [])).zip self.plocal).filter
            (fun pr => decide (pr.2 = 0 ∨ pr.2 = ii))).map (fun pr => pr.1)))
      sstype s = Except.error e) :
    piSampleLoop self (some s2c) iisample sstype dpred ii (kk :: rest) theta s ysave osave =
      Except.error e := by
  rw [piSampleLoop]
  simp only [herr]

/-- Error propagation through the batch loop. -/
theorem piBatchLoop_cons_error {D : Type} [Inhabited D] (self : PIState D)
    (s2chain : Option (List (List ℝ))) (iisample : List ℕ) (sstype nsample : ℕ)
    (lims : List ℝ) (ii : ℕ) (rest : List ℕ) (theta : List ℝ) (s : ℕ → ℝ)
    (cred pred : List (List (List (List ℝ)))) (e : String × (ℕ → ℝ))
    (herr : piSampleLoop self s2chain iisample sstype (self.datapred.getD ii default) ii
      (List.range nsample) theta s [] [] = Except.error e) :
    piBatchLoop self s2chain iisample sstype nsample lims (ii :: rest) theta s cred pred =
      Except.error e := by
  rw [piBatchLoop]
  simp only [herr]

/-- The fixture PredictionIntervals object: a 3-row chain of one
parameter, one data batch with a 1x1 response, an s2chain, and the
unsupported stored residual-scaling mode `sstype = 3`. -/
def piSelf : PIState Unit :=
  { chain := [[0], [1], [2]], s2chain := some [[1], [1], [1]], parind := [0],
    plocal := [0], theta := [0], sstype := 3, nrow := [1], ncol := [1],
    s2chain_index := [(0, 1)], datapred := [()],
    modelfun := fun _ th => [[th.headD 0]] }

/-- The uniform draws 0.3, 0.15, 0.1, ... of the failed configuration run. -/
def s9 : ℕ → ℝ := fun i => 3 / 10 / ((i : ℝ) + 1)

/-- C9, counterexample: with the stored unknown mode `sstype = 3`,
`generate_prediction_intervals` with `nsample = 2 < nsimu = 3` first
consumes the two chain-subsampling uniform draws and evaluates the model,
and only then dies with `sys.exit('Unknown sstype')` inside the first
`_observation_sample` call: the stream at the error is shifted by 2, so
the failed configuration has already perturbed the random stream,
contradicting the claimed detection at setup before any draws. -/
theorem ceil_nine_tenths : ⌈(9 / 10 : ℝ)⌉ = (1 : ℤ) := by
  rw [Int.ceil_eq_iff]
  norm_num

theorem s9_idx0 : (((takeS s9 2).map
    (fun r => (⌈r * ((3 : ℕ) : ℝ)⌉ - 1).toNat)).getD 0 0) = 0 := by
  simp [takeS, List.range_succ, s9]
  norm_num
  rw [ceil_nine_tenths]
  rfl

theorem C9_counterexample :
    generate_prediction_intervals piSelf none (some 2) true s9 =
        Except.error ("Unknown sstype", shiftS s9 2) ∧
      shiftS s9 2 0 ≠ s9 0 := by
  constructor
  · have hobs : observation_sample [(1 : ℝ)] [[(0 : ℝ)]] 3 (shiftS s9 2) =
        Except.error ("Unknown sstype", shiftS s9 2) := by
      simp [observation_sample]
    have hidx := s9_idx0
    have hsam : piSampleLoop piSelf (some [[1], [1], [1]])
        (List.map (fun r => (⌈r * ((3 : ℕ) : ℝ)⌉ - 1).toNat) (takeS s9 2)) 3
        (piSelf.datapred.getD 0 default) 0 (List.range 2) piSelf.theta (shiftS s9 2) [] [] =
        Except.error ("Unknown sstype", shiftS s9 2) := by
      rw [show List.range 2 = [0, 1] from rfl]
      refine piSampleLoop_cons_error _ _ _ _ _ _ _ _ _ _ _ _ _ ?_
      rw [hidx]
      exact hobs
    have hbatch : piBatchLoop piSelf (some [[1], [1], [1]])
        (List.map (fun r => (⌈r * ((3 : ℕ) : ℝ)⌉ - 1).toNat) (takeS s9 2)) 3 2
        [0.025, 0.5, 0.975] (List.range 1) piSelf.theta (shiftS s9 2) [] [] =
        Except.error ("Unknown sstype", shiftS s9 2) := by
      rw [show List.range 1 = [0] from rfl]
      exact piBatchLoop_cons_error _ _ _ _ _ _ _ _ _ _ _ _ _ hsam
    simp only [generate_prediction_intervals, show piSelf.chain.length = 3 from rfl,
      show piSelf.s2chain = some [[1], [1], [1]] from rfl,
      show piSelf.sstype = 3 from rfl, show piSelf.datapred.length = 1 from rfl,
      if_true, Option.isNone_some, Bool.false_eq_true, if_false,
      if_pos (show (2 : ℕ) < 3 from by norm_num)]
    rw [hbatch]
  · simp only [shiftS, s9]
    norm_num

/-- The chain index drawn for sample `kk = 0`:
`ceil(u * nsimu) - 1` from the first subsampling uniform. -/
def piIdx0 {D : Type} (self : PIState D) (nsample : ℕ) (s : ℕ → ℝ) : ℕ :=
  (((takeS s nsample).map
    (fun r => (⌈r * ((self.chain.length : ℕ) : ℝ)⌉ - 1).toNat)).getD 0 0)

/-- The error-variance slice handed to the first `_observation_sample`
call (batch 0, sample 0). -/
def piS2elem0 {D : Type} (self : PIState D) (s2c : List (List ℝ)) (nsample : ℕ)
    (s : ℕ → ℝ) : List ℝ :=
  ((s2c.getD (piIdx0 self nsample s) []).drop (self.s2chain_index.getD 0 (0, 0)).1).take
    ((self.s2chain_index.getD 0 (0, 0)).2 - (self.s2chain_index.getD 0 (0, 0)).1)

/-- The model response of the first sample of the first batch. -/
def piYpred0 {D : Type} [Inhabited D] (self : PIState D) (nsample : ℕ)
    (s : ℕ → ℝ) : List (List ℝ) :=
  self.modelfun (self.datapred.getD 0 default)
    ((((scatter_update self.theta self.parind
          (self.chain.getD (piIdx0 self nsample s) [])).zip self.plocal).filter
        (fun pr => decide (pr.2 = 0 ∨ pr.2 = 0))).map (fun pr => pr.1))

/-- C9, amended: an unknown residual-scaling mode is not validated at
setup; it is detected only by `sys.exit('Unknown sstype')` inside the
first `_observation_sample` call of the sampling loop.  When
`nsample < nsimu`, the `nsample` chain-subsampling uniforms have already
been consumed at that point (and the model has been evaluated), so the
failed configuration perturbs the random stream: the stream carried by
the error is the input shifted by `nsample`.  (An explicitly passed
`sstype` argument is replaced by 0, so only the stored mode can be
unknown.) -/
theorem C9_amended {D : Type} [Inhabited D] (self : PIState D)
    (s2c : List (List ℝ)) (nsample m k : ℕ) (s : ℕ → ℝ)
    (hs2 : self.s2chain = some s2c)
    (hu0 : self.sstype ≠ 0) (hu1 : self.sstype ≠ 1) (hu2 : self.sstype ≠ 2)
    (hns : nsample < self.chain.length)
    (hm : nsample = m + 1)
    (hk : self.datapred.length = k + 1)
    (hshape : ¬ ((piS2elem0 self s2c nsample s).length ≠
        ((piYpred0 self nsample s).headD []).length ∧
      (piS2elem0 self s2c nsample s).length ≠ 1)) :
    generate_prediction_intervals self none (some nsample) true s =
      Except.error ("Unknown sstype", shiftS s nsample) := by
  subst hm
  have hobs : observation_sample (piS2elem0 self s2c (m + 1) s)
      (piYpred0 self (m + 1) s) self.sstype (shiftS s (m + 1)) =
      Except.error ("Unknown sstype", shiftS s (m + 1)) := by
    rw [observation_sample]
    rw [if_neg hshape]
    rw [if_neg hu0, if_neg hu1, if_neg hu2]
  have hsam : piSampleLoop self (some s2c)
      ((takeS s (m + 1)).map
        (fun r => (⌈r * ((self.chain.length : ℕ) : ℝ)⌉ - 1).toNat)) self.sstype
      (self.datapred.getD 0 default) 0 (List.range (m + 1)) self.theta
      (shiftS s (m + 1)) [] [] =
      Except.error ("Unknown sstype", shiftS s (m + 1)) := by
    rw [List.range_succ_eq_map]
    exact piSampleLoop_cons_error _ _ _ _ _ _ _ _ _ _ _ _ _ hobs
  have hbatch : piBatchLoop self (some s2c)
      ((takeS s (m + 1)).map
        (fun r => (⌈r * ((self.chain.length : ℕ) : ℝ)⌉ - 1).toNat)) self.sstype
      (m + 1) [0.025, 0.5, 0.975] (List.range self.datapred.length) self.theta
      (shiftS s (m + 1)) [] [] =
      Except.error ("Unknown sstype", shiftS s (m + 1)) := by
    rw [hk, List.range_succ_eq_map]
    exact piBatchLoop_cons_error _ _ _ _ _ _ _ _ _ _ _ _ _ hsam
  simp only [generate_prediction_intervals, hs2, if_true, Option.isNone_some,
    Bool.false_eq_true, if_false, if_pos hns]
  rw [hbatch]

/-- C9 witness: the amended statement at the concrete fixture with stored
`sstype = 3` and `nsample = 2 < nsimu = 3`. -/
theorem C9_amended_witness :
    generate_prediction_intervals piSelf none (some 2) true s9 =
      Except.error ("Unknown sstype", shiftS s9 2) := by
  have hsl : piS2elem0 piSelf [[1], [1], [1]] 2 s9 = [1] := by
    rw [piS2elem0, piIdx0]
    rw [show piSelf.chain.length = 3 from rfl]
    rw [s9_idx0]
    rfl
  have hyp : piYpred0 piSelf 2 s9 = [[0]] := by
    rw [piYpred0, piIdx0]
    rw [show piSelf.chain.length = 3 from rfl]
    rw [s9_idx0]
    rfl
  refine C9_amended piSelf [[1], [1], [1]] 2 1 0 s9 rfl (by decide) (by decide) (by decide)
    (by decide) rfl rfl ?_
  rw [hsl, hyp]
  intro hcontra
  exact absurd rfl hcontra.2

end
